import Mathlib

/- Verification of the ehremr clinical-transcription EHR integration core:
   the FHIR R4 DocumentReference builder, its offline schema validator and
   content decoder (src/ehr_integration/fhir/document_reference.py), the
   transcript formatter, and the HL7v2 MDM and ORU message builders
   (src/ehr_integration/hl7/mdm_builder.py, oru_builder.py).

   Python strings are modelled as lists of unicode characters, bytes as
   lists of naturals below 256, Python dicts as association lists, and the
   JSON-like resource dicts as an inductive value type.  Python float
   fields (utterance start/end times) are modelled as rationals, and the
   percent .1f format as correct round-half-even rendering to one decimal
   place. -/

set_option maxHeartbeats 1000000
set_option maxRecDepth 10000

/-- Python strings are modelled as lists of unicode characters. -/
abbrev Str := List Char

/-- The single-quote character (used by Python repr of strings). -/
def sqChar : Char := Char.ofNat 39

/-- The left curly brace character. -/
def lbChar : Char := Char.ofNat 123

/-- The right curly brace character. -/
def rbChar : Char := Char.ofNat 125

/-- Whitespace characters recognised by Python str.strip() with no
    arguments: the characters c with chr(c).strip() empty, that is
    0x9-0xd, the ASCII separators 0x1c-0x1f, space, next line 0x85,
    no-break space 0xa0, ogham space 0x1680, the en-quad..hair-space
    block 0x2000-0x200a, the line and paragraph separators 0x2028 and
    0x2029, narrow no-break space 0x202f, medium mathematical space
    0x205f, and ideographic space 0x3000. -/
def pyIsSpace (c : Char) : Bool :=
  (9 ≤ c.toNat && c.toNat ≤ 13) || (28 ≤ c.toNat && c.toNat ≤ 32) ||
  c.toNat = 133 || c.toNat = 160 || c.toNat = 5760 ||
  (8192 ≤ c.toNat && c.toNat ≤ 8202) || c.toNat = 8232 || c.toNat = 8233 ||
  c.toNat = 8239 || c.toNat = 8287 || c.toNat = 12288

/-- Python str.strip(): drop leading and trailing whitespace. -/
def pyStrip (s : Str) : Str :=
  ((s.dropWhile pyIsSpace).reverse.dropWhile pyIsSpace).reverse

/-- Python str.replace(needle, repl) for a one-character needle. -/
def pyReplace1 (s : Str) (needle : Char) (repl : Str) : Str :=
  s.flatMap (fun c => if c = needle then repl else [c])

/-- Python sep.join(parts). -/
def pyJoin (sep : Str) : List Str → Str
  | [] => []
  | [x] => x
  | x :: y :: rest => x ++ sep ++ pyJoin sep (y :: rest)

/-- Python str.split(sep) for a one-character separator. -/
def pySplitChar (sep : Char) : Str → List Str
  | [] => [[]]
  | c :: rest =>
    match pySplitChar sep rest with
    | [] => [[]]
    | h :: t => if c = sep then [] :: h :: t else (c :: h) :: t

/-- Python str(n) for a natural number. -/
def natStr (n : Nat) : Str := Nat.toDigits 10 n

/-- Python str(i) for an integer. -/
def intStr (i : Int) : Str := if i < 0 then '-' :: natStr i.natAbs else natStr i.natAbs

-- ----------------------------------------------------------------------
-- base64 (Python base64.b64encode / b64decode)
-- ----------------------------------------------------------------------

/-- The standard base64 alphabet. -/
def b64Alphabet : Str :=
  "ABCDEFGHIJKLMNOPQRSTUVWXYZabcdefghijklmnopqrstuvwxyz0123456789+/".data

/-- Alphabet character for a 6-bit group. -/
def b64Char (i : Nat) : Char := b64Alphabet.getD i 'A'

/-- Index of a character in the base64 alphabet. -/
def b64Idx (c : Char) : Option Nat := b64Alphabet.findIdx? (fun a => a = c)

/-- Membership in the base64 alphabet. -/
def b64ValidChar (c : Char) : Bool := b64Alphabet.contains c

/-- Python base64.b64encode of a byte list (standard alphabet, with
    padding), viewed as an ASCII string. -/
def b64Encode : List Nat → Str
  | b1 :: b2 :: b3 :: rest =>
      b64Char (b1 / 4) :: b64Char ((b1 % 4) * 16 + b2 / 16) ::
      b64Char ((b2 % 16) * 4 + b3 / 64) :: b64Char (b3 % 64) :: b64Encode rest
  | [b1, b2] => [b64Char (b1 / 4), b64Char ((b1 % 4) * 16 + b2 / 16), b64Char ((b2 % 16) * 4), '=']
  | [b1] => [b64Char (b1 / 4), b64Char ((b1 % 4) * 16), '=', '=']
  | [] => []

/-- str() of the binascii.Error raised when decoding stops two or three
    data characters into a group. -/
def b64ErrStr : Str := "Incorrect padding".data

/-- str() of the binascii.Error raised when the data-character count of
    a base64 payload is one more than a multiple of four. -/
def b64NumDataMsg (n : Nat) : Str :=
  "Invalid base64-encoded string: number of data characters (".data ++ natStr n ++
    ") cannot be 1 more than a multiple of 4".data

/-- str() of the ValueError base64.b64decode raises (before any decoding)
    when its str argument does not encode to ASCII. -/
def b64AsciiErrStr : Str :=
  "string argument should contain only ASCII characters".data

/-- The quad-wise decoding loop of binascii.a2b_base64 (CPython 3.11,
    non-strict mode): n counts the data characters consumed so far, qp
    those in the current group, cur their accumulated 6-bit values, pads
    the padding characters seen since the group reached two data
    characters.  Characters outside the alphabet are skipped; a padding
    character is skipped while the group has fewer than two data
    characters; once group position plus padding reaches four, the
    partial group is emitted and the remaining input ignored; input
    ending one character into a group is the data-character-count error,
    ending two or three characters in is incorrect padding. -/
def b64Go : Nat → Nat → Nat → Nat → Str → Except Str (List Nat)
  | n, qp, _, _, [] =>
    if qp = 0 then Except.ok []
    else if qp = 1 then Except.error (b64NumDataMsg n)
    else Except.error b64ErrStr
  | n, qp, cur, pads, c :: rest =>
    match b64Idx c with
    | some i =>
      if qp = 3 then
        (b64Go (n + 1) 0 0 0 rest).map
          (fun bs => (cur * 64 + i) / 65536 :: (cur * 64 + i) / 256 % 256 ::
            (cur * 64 + i) % 256 :: bs)
      else b64Go (n + 1) (qp + 1) (cur * 64 + i) 0 rest
    | Option.none =>
      if c = '=' then
        if 2 ≤ qp then
          if 4 ≤ qp + pads + 1 then
            if qp = 2 then Except.ok [cur / 16]
            else Except.ok [cur / 1024, cur / 4 % 256]
          else b64Go n qp cur (pads + 1) rest
        else b64Go n qp cur pads rest
      else b64Go n qp cur pads rest

/-- The shape test base64.b64decode performs when validate=True:
    the whole string must be alphabet characters followed by at most two
    padding characters (re.fullmatch of the base64 validation pattern). -/
def b64ValidateShape (s : Str) : Bool :=
  s.drop (s.takeWhile b64ValidChar).length = [] ||
  s.drop (s.takeWhile b64ValidChar).length = ['='] ||
  s.drop (s.takeWhile b64ValidChar).length = ['=', '=']

/-- Python base64.b64decode(s, validate=True): characters outside the
    alphabet-plus-padding shape raise binascii.Error, then
    binascii.a2b_base64 runs in strict mode, which additionally rejects
    leading padding (padding before any data character); on shape-valid
    input the strict loop otherwise agrees with the non-strict one. -/
def b64DecodeStrict (s : Str) : Option (List Nat) :=
  if b64ValidateShape s = false then Option.none
  else if s ≠ [] ∧ s.takeWhile b64ValidChar = [] then Option.none
  else (b64Go 0 0 0 0 s).toOption

/-- Python base64.b64decode(s) with validate=False on a str argument:
    the string must first encode to ASCII (a plain ValueError otherwise),
    then binascii.a2b_base64 runs in non-strict mode; an error value is
    str() of the exception raised. -/
def b64DecodeLenient (s : Str) : Except Str (List Nat) :=
  if s.any (fun c => 127 < c.toNat) then Except.error b64AsciiErrStr
  else b64Go 0 0 0 0 s

-- ----------------------------------------------------------------------
-- UTF-8 (Python str.encode("utf-8") / bytes.decode("utf-8"))
-- ----------------------------------------------------------------------

/-- UTF-8 encoding of one unicode scalar value. -/
def utf8EncodeChar (c : Char) : List Nat :=
  if c.toNat < 128 then [c.toNat]
  else if c.toNat < 2048 then [192 + c.toNat / 64, 128 + c.toNat % 64]
  else if c.toNat < 65536 then
    [224 + c.toNat / 4096, 128 + c.toNat / 64 % 64, 128 + c.toNat % 64]
  else
    [240 + c.toNat / 262144, 128 + c.toNat / 4096 % 64, 128 + c.toNat / 64 % 64,
      128 + c.toNat % 64]

/-- Python str.encode("utf-8"): byte list of a string. -/
def utf8Encode (s : Str) : List Nat := s.flatMap utf8EncodeChar

/-- Hexadecimal digit characters (lowercase, as CPython prints them). -/
def hexDigit (n : Nat) : Char := "0123456789abcdef".data.getD n '0'

/-- A byte printed the way CPython error messages print it: 0x and two
    lowercase hexadecimal digits. -/
def hexByte (b : Nat) : Str := "0x".data ++ [hexDigit (b / 16), hexDigit (b % 16)]

/-- The fixed head of every UnicodeDecodeError str(): the codec name in
    single quotes and the contraction in can not. -/
def utf8ErrHead : Str :=
  sqChar :: ("utf-8".data ++ (sqChar :: (" codec can".data ++
    (sqChar :: "t decode ".data))))

/-- str() of a UnicodeDecodeError whose bad range is a single byte. -/
def utf8ByteMsg (b pos : Nat) (reason : Str) : Str :=
  utf8ErrHead ++ "byte ".data ++ hexByte b ++ " in position ".data ++ natStr pos ++
    ": ".data ++ reason

/-- str() of a UnicodeDecodeError whose bad range spans several bytes. -/
def utf8RangeMsg (p q : Nat) (reason : Str) : Str :=
  utf8ErrHead ++ "bytes in position ".data ++ natStr p ++ "-".data ++ natStr q ++
    ": ".data ++ reason

/-- The error for a sequence opened by byte sb at position sp of which k
    valid continuation bytes followed: the message names the start byte
    alone when no continuation was consumed, the consumed span otherwise. -/
def utf8SeqMsg (sb sp k : Nat) (reason : Str) : Str :=
  if k = 0 then utf8ByteMsg sb sp reason else utf8RangeMsg sp (sp + k) reason

/-- Decoder state between bytes: at a character boundary, or inside a
    sequence opened by byte sb at position sp, with need continuation
    bytes outstanding, cur the scalar accumulated so far, the next byte
    constrained to lo..hi (CPython restricts the first continuation byte
    of E0, ED, F0 and F4 to reject overlong forms, surrogates and
    out-of-range code points at once), and k continuations consumed. -/
inductive U8State where
  | boundary
  | mid (sb sp need cur lo hi k : Nat)

/-- Strict UTF-8 decoding (Python bytes.decode("utf-8")) as CPython
    performs it, byte at a time with the running position, producing the
    decoded string or str() of the UnicodeDecodeError: bytes 80-C1 and
    F5-FF are invalid start bytes; a byte outside the allowed
    continuation window is an invalid continuation byte blamed on the
    bytes consumed so far; input ending mid-sequence is unexpected end
    of data. -/
def utf8Run : U8State → Nat → List Nat → Except Str Str
  | U8State.boundary, _, [] => Except.ok []
  | U8State.boundary, pos, b :: rest =>
    if b < 128 then (utf8Run U8State.boundary (pos + 1) rest).map
      (fun t => Char.ofNat b :: t)
    else if b < 194 then Except.error (utf8ByteMsg b pos "invalid start byte".data)
    else if b < 224 then utf8Run (U8State.mid b pos 1 (b - 192) 128 191 0) (pos + 1) rest
    else if b = 224 then utf8Run (U8State.mid b pos 2 (b - 224) 160 191 0) (pos + 1) rest
    else if b = 237 then utf8Run (U8State.mid b pos 2 (b - 224) 128 159 0) (pos + 1) rest
    else if b < 240 then utf8Run (U8State.mid b pos 2 (b - 224) 128 191 0) (pos + 1) rest
    else if b = 240 then utf8Run (U8State.mid b pos 3 (b - 240) 144 191 0) (pos + 1) rest
    else if b = 244 then utf8Run (U8State.mid b pos 3 (b - 240) 128 143 0) (pos + 1) rest
    else if b < 245 then utf8Run (U8State.mid b pos 3 (b - 240) 128 191 0) (pos + 1) rest
    else Except.error (utf8ByteMsg b pos "invalid start byte".data)
  | U8State.mid sb sp _ _ _ _ k, _, [] =>
    Except.error (utf8SeqMsg sb sp k "unexpected end of data".data)
  | U8State.mid sb sp need cur lo hi k, pos, b :: rest =>
    if lo ≤ b ∧ b ≤ hi then
      if need = 1 then (utf8Run U8State.boundary (pos + 1) rest).map
        (fun t => Char.ofNat (cur * 64 + (b - 128)) :: t)
      else utf8Run (U8State.mid sb sp (need - 1) (cur * 64 + (b - 128)) 128 191 (k + 1))
        (pos + 1) rest
    else Except.error (utf8SeqMsg sb sp k "invalid continuation byte".data)

/-- Python bytes.decode("utf-8") on a byte list. -/
def utf8Decode (l : List Nat) : Except Str Str := utf8Run U8State.boundary 0 l

-- ----------------------------------------------------------------------
-- JSON-like values and Python dict semantics
-- ----------------------------------------------------------------------

/-- The double-quote character. -/
def dqChar : Char := Char.ofNat 34

mutual

/-- JSON-like values held in a DocumentReference dict: Python str, list,
    dict (unique keys in insertion order), and None.  Lists and dicts are
    their own inductive types (rather than List nesting) so that all
    consumers are plainly structural and computable. -/
inductive JVal where
  | s (v : Str)
  | arr (l : JList)
  | obj (l : JObj)
  | null

inductive JList where
  | nil
  | cons (hd : JVal) (tl : JList)

inductive JObj where
  | nil
  | cons (key : Str) (val : JVal) (tl : JObj)

end

/-- Elements of a JSON list as a Lean list. -/
def JList.toList : JList → List JVal
  | .nil => []
  | .cons hd tl => hd :: tl.toList

/-- Entries of a JSON dict as a Lean list. -/
def JObj.toList : JObj → List (Str × JVal)
  | .nil => []
  | .cons k v tl => (k, v) :: tl.toList

/-- Build a JSON list from a Lean list. -/
def JList.ofL : List JVal → JList
  | [] => .nil
  | x :: rest => .cons x (JList.ofL rest)

/-- Build a JSON dict from a Lean list of entries. -/
def JObj.ofL : List (Str × JVal) → JObj
  | [] => .nil
  | (k, v) :: rest => .cons k v (JObj.ofL rest)

/-- A JSON list value from a Lean list. -/
def JVal.mkArr (l : List JVal) : JVal := .arr (JList.ofL l)

/-- A JSON dict value from a Lean list of entries. -/
def JVal.mkObj (l : List (Str × JVal)) : JVal := .obj (JObj.ofL l)

/-- Length of a JSON list. -/
def JList.length (l : JList) : Nat := l.toList.length

/-- Python exceptions the module can raise or catch.  binascii.Error and
    UnicodeDecodeError are subclasses of ValueError; KeyError and
    IndexError are caught by decode_content; TypeError and AttributeError
    are never caught by this module. -/
inductive PyExc where
  | keyError (k : Str)
  | indexError (msg : Str)
  | typeError (msg : Str)
  | attributeError (msg : Str)
  | valueError (msg : Str)

/-- The Python type name of a JSON value that is not a string. -/
def pyTypeName : JVal → Str
  | .s _ => "str".data
  | .arr _ => "list".data
  | .obj _ => "dict".data
  | .null => "NoneType".data

/-- str() of the TypeError base64.b64decode raises on an argument that
    is neither bytes-like nor a str. -/
def b64TypeErrMsg (w : JVal) : Str :=
  "argument should be a bytes-like object or ASCII string, not ".data ++
    (sqChar :: (pyTypeName w ++ [sqChar]))

/-- Python dict lookup on an association structure (first match). -/
def jLookup : JObj → Str → Option JVal
  | .nil, _ => Option.none
  | .cons k v rest, key => if k = key then some v else jLookup rest key

/-- Python dict.get(key, default) on a dict. -/
def jdictGet (d : JObj) (key : Str) (dflt : JVal) : JVal :=
  (jLookup d key).getD dflt

/-- Python truthiness of a value (empty strings, lists, dicts and None
    are falsy). -/
def JVal.truthy : JVal → Bool
  | .s v => !v.isEmpty
  | .arr .nil => false
  | .arr (.cons _ _) => true
  | .obj .nil => false
  | .obj (.cons _ _ _) => true
  | .null => false

/-- Python v.get(key, default): the .get attribute exists only on dicts;
    any other receiver raises AttributeError. -/
def JVal.get (v : JVal) (key : Str) (dflt : JVal) : Except PyExc JVal :=
  match v with
  | .obj d => .ok (jdictGet d key dflt)
  | _ => .error (.attributeError "object has no attribute get".data)

/-- Python v[i] for an integer index: lists yield the element or
    IndexError, strings yield a one-character string or IndexError,
    dicts raise KeyError (no such integer key), None raises TypeError. -/
def JVal.index (v : JVal) (i : Nat) : Except PyExc JVal :=
  match v with
  | .arr l =>
    match l.toList.get? i with
    | some x => .ok x
    | Option.none => .error (.indexError "list index out of range".data)
  | .s cs =>
    match cs.get? i with
    | some c => .ok (.s [c])
    | Option.none => .error (.indexError "string index out of range".data)
  | .obj _ => .error (.keyError (natStr i))
  | .null => .error (.typeError "NoneType object is not subscriptable".data)

/-- Python v[key] for a string key: dicts yield the value or KeyError;
    strings and lists require integer indices (TypeError); None is not
    subscriptable (TypeError). -/
def JVal.getItem (v : JVal) (key : Str) : Except PyExc JVal :=
  match v with
  | .obj d =>
    match jLookup d key with
    | some x => .ok x
    | Option.none => .error (.keyError key)
  | .s _ => .error (.typeError "string indices must be integers".data)
  | .arr _ => .error (.typeError "list indices must be integers".data)
  | .null => .error (.typeError "NoneType object is not subscriptable".data)

/-- Python membership test of a value in a set of strings: lists and
    dicts are unhashable and raise TypeError; None is hashable and is in
    no string set. -/
def pyInStrSet (v : JVal) (ss : List Str) : Except PyExc Bool :=
  match v with
  | .s x => .ok (ss.contains x)
  | .null => .ok false
  | .arr _ => .error (.typeError "unhashable type list".data)
  | .obj _ => .error (.typeError "unhashable type dict".data)

/-- Python re.match(pattern, v) via a compiled matcher m: the argument
    must be a string, otherwise TypeError. -/
def pyReMatch (m : Str → Bool) (v : JVal) : Except PyExc Bool :=
  match v with
  | .s x => .ok (m x)
  | _ => .error (.typeError "expected string or bytes-like object".data)

/-- Python iteration (for x in v): lists yield elements, strings yield
    one-character strings, dicts yield their keys, None raises
    TypeError. -/
def JVal.pyIter : JVal → Except PyExc (List JVal)
  | .arr l => .ok l.toList
  | .s cs => .ok (cs.map (fun c => .s [c]))
  | .obj d => .ok (d.toList.map (fun kv => JVal.s kv.1))
  | .null => .error (.typeError "NoneType object is not iterable".data)

/-- Escaping of one character inside a Python string repr quoted with q. -/
def pyReprChar (q c : Char) : Str :=
  if c = '\\' then ['\\', '\\']
  else if c = q then ['\\', q]
  else if c = '\n' then ['\\', 'n']
  else if c = '\r' then ['\\', 'r']
  else if c = '\t' then ['\\', 't']
  else if c.toNat < 32 ∨ c.toNat = 127 then
    '\\' :: 'x' :: [hexDigit (c.toNat / 16), hexDigit (c.toNat % 16)]
  else [c]

/-- Python repr of a string: single quotes, switching to double quotes
    when the text contains a single quote but no double quote. -/
def pyReprStr (v : Str) : Str :=
  let q := if v.contains sqChar && !(v.contains dqChar) then dqChar else sqChar
  q :: v.flatMap (pyReprChar q) ++ [q]

mutual

/-- Python repr of a value (f-string !r interpolation). -/
def pyRepr : JVal → Str
  | .s v => pyReprStr v
  | .null => "None".data
  | .arr l => '[' :: pyReprList l ++ [']']
  | .obj d => lbChar :: pyReprObj d ++ [rbChar]

/-- Comma-separated reprs of list elements. -/
def pyReprList : JList → Str
  | .nil => []
  | .cons x .nil => pyRepr x
  | .cons x (.cons y tl) => pyRepr x ++ ", ".data ++ pyReprList (.cons y tl)

/-- Comma-separated key: value reprs of dict entries. -/
def pyReprObj : JObj → Str
  | .nil => []
  | .cons k v .nil => pyReprStr k ++ ": ".data ++ pyRepr v
  | .cons k v (.cons k2 v2 tl) =>
    pyReprStr k ++ ": ".data ++ pyRepr v ++ ", ".data ++ pyReprObj (.cons k2 v2 tl)

end

/-- Python repr of a set of strings, rendered in literal order (CPython
    set iteration order is hash-dependent; no claim depends on it). -/
def pyReprStrSet (ss : List Str) : Str :=
  lbChar :: pyJoin ", ".data (ss.map pyReprStr) ++ [rbChar]

-- ----------------------------------------------------------------------
-- The two compiled regular expressions of document_reference.py
-- ----------------------------------------------------------------------

/-- ASCII character class A-Z. -/
def isUpperAlpha (c : Char) : Bool := 'A' ≤ c && c ≤ 'Z'

/-- ASCII character class A-Za-z. -/
def isAsciiAlpha (c : Char) : Bool := ('A' ≤ c && c ≤ 'Z') || ('a' ≤ c && c ≤ 'z')

/-- ASCII character class 0-9. -/
def isAsciiDigit (c : Char) : Bool := '0' ≤ c && c ≤ '9'

/-- Matcher for the tail .+ followed by the end anchor, with Python
    semantics: dot matches anything but newline, and the dollar anchor
    also matches just before one trailing newline. -/
def dotPlusThenEnd (b : Str) : Bool :=
  let core := if b.getLast? = some '\n' then b.dropLast else b
  !core.isEmpty && core.all (fun c => c ≠ '\n')

/-- re.match of _FHIR_REFERENCE_RE, the raw pattern anchored
    [A-Z][A-Za-z]+/.+ with an end anchor: an uppercase letter, one or
    more further ASCII letters, a slash, then at least one non-newline
    character, allowing one trailing newline (a Python dollar quirk). -/
def fhirReferenceMatch (v : Str) : Bool :=
  match v with
  | [] => false
  | c0 :: rest =>
    isUpperAlpha c0 && !(rest.takeWhile isAsciiAlpha).isEmpty &&
    (rest.dropWhile isAsciiAlpha).head? = some '/' &&
    dotPlusThenEnd (rest.dropWhile isAsciiAlpha).tail

/-- Matcher for the timezone alternative (Z or +hh:mm or -hh:mm)
    followed by the end anchor of _FHIR_DATETIME_RE. -/
def fhirTzMatch : Str → Bool
  | 'Z' :: rest => rest = [] || rest = ['\n']
  | sign :: o1 :: o2 :: ':' :: o3 :: o4 :: rest =>
    (sign = '+' || sign = '-') && isAsciiDigit o1 && isAsciiDigit o2 &&
    isAsciiDigit o3 && isAsciiDigit o4 && (rest = [] || rest = ['\n'])
  | _ => false

/-- re.match of _FHIR_DATETIME_RE: four digits, dash, two digits, dash,
    two digits, T, two digits, colon, two digits, colon, two digits,
    then Z or a signed two-digit:two-digit offset, at the end of the
    string (one trailing newline allowed, a Python dollar quirk). -/
def fhirInstantMatch (v : Str) : Bool :=
  match v with
  | y1 :: y2 :: y3 :: y4 :: '-' :: mo1 :: mo2 :: '-' :: d1 :: d2 :: 'T' ::
      h1 :: h2 :: ':' :: mi1 :: mi2 :: ':' :: se1 :: se2 :: tz =>
    [y1, y2, y3, y4, mo1, mo2, d1, d2, h1, h2, mi1, mi2, se1, se2].all isAsciiDigit &&
    fhirTzMatch tz
  | _ => false

-- ----------------------------------------------------------------------
-- document_reference.py: constants and transcript formatting
-- ----------------------------------------------------------------------

/-- LOINC code for a progress note. -/
def _LOINC_PROGRESS_NOTE : Str := "11506-3".data

/-- LOINC code for a consult note. -/
def _LOINC_CONSULT_NOTE : Str := "11488-4".data

/-- LOINC code for a discharge summary. -/
def _LOINC_DISCHARGE_SUMMARY : Str := "18842-5".data

/-- LOINC code for an ambient clinical note. -/
def _LOINC_AMBIENT_CLINICAL : Str := "34109-9".data

/-- The doc_type_code to LOINC code table DOC_TYPE_LOINC. -/
def DOC_TYPE_LOINC : List (Str × Str) :=
  [("progress_note".data,     _LOINC_PROGRESS_NOTE),
   ("consult_note".data,      _LOINC_CONSULT_NOTE),
   ("discharge_summary".data, _LOINC_DISCHARGE_SUMMARY),
   ("ambient".data,           _LOINC_AMBIENT_CLINICAL)]

/-- Python dict.get on a string-to-string table. -/
def assocGet : List (Str × Str) → Str → Option Str
  | [], _ => Option.none
  | (k, v) :: rest, key => if k = key then some v else assocGet rest key

/-- The valid DocumentReference.status codes _VALID_STATUSES. -/
def _VALID_STATUSES : List Str :=
  ["current".data, "superseded".data, "entered-in-error".data]

/-- The valid DocumentReference.docStatus codes _VALID_DOC_STATUSES. -/
def _VALID_DOC_STATUSES : List Str :=
  ["preliminary".data, "final".data, "amended".data, "entered-in-error".data]

/-- The LOINC system URI _LOINC_SYSTEM. -/
def _LOINC_SYSTEM : Str := "http://loinc.org".data

/-- The display-string table of the private helper _loinc_display. -/
def _loinc_display (code : Str) : Str :=
  (assocGet
    [(_LOINC_PROGRESS_NOTE,     "Progress note".data),
     (_LOINC_CONSULT_NOTE,      "Consult note".data),
     (_LOINC_DISCHARGE_SUMMARY, "Discharge summary".data),
     (_LOINC_AMBIENT_CLINICAL,  "Note".data)] code).getD "Clinical note".data

/-- A speaker-diarized utterance (transcription.models.Utterance).  The
    Python float fields start, end and confidence are modelled as the
    rational numbers those floats denote; the field named end in the
    source is end_ here because end is a Lean keyword. -/
structure Utterance where
  speaker : Int
  transcript : Str
  start : Rat
  end_ : Rat
  confidence : Rat := 0

/-- Round half to even of the fraction num/den to an integer, the
    rounding of Python float formatting. -/
def roundHalfEvenFrac (num : Int) (den : Nat) : Int :=
  let f := num.fdiv den
  let r := num - f * (den : Int)
  if 2 * r < (den : Int) then f
  else if (den : Int) < 2 * r then f + 1
  else if f % 2 = 0 then f else f + 1

/-- Python format .1f of a float value, modelled on the rational it
    denotes: round half-even at one decimal place (a negative value
    rounding to zero renders with the - sign, as Python does). -/
def fmt1f (q : Rat) : Str :=
  let n := roundHalfEvenFrac (q.num * 10) q.den
  let m := n.natAbs
  (if n < 0 ∨ (n = 0 ∧ q.num < 0) then ['-'] else []) ++
    natStr (m / 10) ++ '.' :: [Nat.digitChar (m % 10)]

/-- One line of the formatted transcript:
    [Speaker (speaker) | (start)s-(end)s] (transcript). -/
def utteranceLine (u : Utterance) : Str :=
  "[Speaker ".data ++ intStr u.speaker ++ " | ".data ++ fmt1f u.start ++ "s-".data ++
    fmt1f u.end_ ++ "s] ".data ++ u.transcript

/-- The private helper _format_transcript: empty input gives the empty
    string, otherwise one line per utterance joined by newline. -/
def _format_transcript (utterances : List Utterance) : Str :=
  if utterances.isEmpty then []
  else pyJoin "\n".data (utterances.map utteranceLine)

/-- The UTC clock value captured by datetime.now(timezone.utc), passed
    explicitly to the embedded builder. -/
structure UtcNow where
  year : Nat
  month : Nat
  day : Nat
  hour : Nat
  minute : Nat
  second : Nat

/-- Two-digit zero-padded strftime field (faithful for values below
    100, which a real clock always satisfies). -/
def pad2 (n : Nat) : Str := [Nat.digitChar (n / 10 % 10), Nat.digitChar (n % 10)]

/-- Four-digit zero-padded strftime field (faithful for values below
    10000). -/
def pad4 (n : Nat) : Str :=
  [Nat.digitChar (n / 1000 % 10), Nat.digitChar (n / 100 % 10),
   Nat.digitChar (n / 10 % 10), Nat.digitChar (n % 10)]

/-- strftime of the builder: year-month-dayThour:minute:secondZ. -/
def nowIso (t : UtcNow) : Str :=
  pad4 t.year ++ '-' :: pad2 t.month ++ '-' :: pad2 t.day ++ 'T' :: pad2 t.hour ++
    ':' :: pad2 t.minute ++ ':' :: pad2 t.second ++ ['Z']

-- ----------------------------------------------------------------------
-- document_reference.py: validate_r4_schema
-- ----------------------------------------------------------------------

/-- Python inequality of a value against a string literal. -/
def jvalNeStr (v : JVal) (t : Str) : Bool :=
  match v with
  | .s x => decide (x ≠ t)
  | _ => true

/-- Whether a value is a dict (Python isinstance(v, dict)). -/
def JVal.isObj : JVal → Bool
  | .obj _ => true
  | _ => false

/-- Validator block 1: resourceType must be DocumentReference. -/
def checkResourceType (doc_ref : JObj) : List Str :=
  let v := jdictGet doc_ref "resourceType".data JVal.null
  if jvalNeStr v "DocumentReference".data then
    ["resourceType must be ".data ++ pyReprStr "DocumentReference".data ++
      ", got ".data ++ pyRepr v]
  else []

/-- Validator block 2: status present and a valid code. -/
def checkStatus (doc_ref : JObj) : Except PyExc (List Str) :=
  let status := jdictGet doc_ref "status".data JVal.null
  if ¬ status.truthy then .ok ["status is required".data]
  else do
    let b ← pyInStrSet status _VALID_STATUSES
    if ¬ b then
      .ok ["status ".data ++ pyRepr status ++ " is not a valid R4 code: ".data ++
        pyReprStrSet _VALID_STATUSES]
    else .ok []

/-- Validator block 3: docStatus, when present, a valid code. -/
def checkDocStatus (doc_ref : JObj) : Except PyExc (List Str) :=
  let doc_status := jdictGet doc_ref "docStatus".data JVal.null
  if doc_status.truthy then do
    let b ← pyInStrSet doc_status _VALID_DOC_STATUSES
    if ¬ b then
      .ok ["docStatus ".data ++ pyRepr doc_status ++ " is not a valid R4 code: ".data ++
        pyReprStrSet _VALID_DOC_STATUSES]
    else .ok []
  else .ok []

/-- Validator block 4: type.coding first entry and its system and code
    (the conditional expression evaluates the coding truthiness first,
    then re-reads and indexes the list). -/
def checkTypeCoding (doc_ref : JObj) : Except PyExc (List Str) := do
  let y ← (jdictGet doc_ref "type".data (JVal.obj .nil)).get "coding".data JVal.null
  let coding ←
    if y.truthy then do
      let x ← (jdictGet doc_ref "type".data (JVal.obj .nil)).get "coding".data
        (JVal.mkArr [JVal.obj .nil])
      x.index 0
    else
      pure (JVal.obj JObj.nil)
  if ¬ coding.truthy then
    .ok ["type.coding must have at least one entry".data]
  else do
    let sysv ← coding.get "system".data JVal.null
    let e1 :=
      if jvalNeStr sysv _LOINC_SYSTEM then
        ["type.coding[0].system must be ".data ++ pyReprStr _LOINC_SYSTEM ++
          ", got ".data ++ pyRepr sysv]
      else []
    let codev ← coding.get "code".data JVal.null
    let e2 := if ¬ codev.truthy then ["type.coding[0].code is required".data] else []
    .ok (e1 ++ e2)

/-- Validator block 5: subject.reference present and matching the
    reference pattern. -/
def checkSubject (doc_ref : JObj) : Except PyExc (List Str) := do
  let subject_ref ← (jdictGet doc_ref "subject".data (JVal.obj .nil)).get
    "reference".data (JVal.s [])
  if ¬ subject_ref.truthy then
    .ok ["subject.reference is required".data]
  else do
    let b ← pyReMatch fhirReferenceMatch subject_ref
    if ¬ b then
      .ok ["subject.reference ".data ++ pyRepr subject_ref ++ " must match ".data ++
        pyReprStr "ResourceType/id".data]
    else .ok []

/-- Validator block 6: date, when present, a FHIR instant. -/
def checkDate (doc_ref : JObj) : Except PyExc (List Str) := do
  let date_val := jdictGet doc_ref "date".data (JVal.s [])
  if date_val.truthy then do
    let b ← pyReMatch fhirInstantMatch date_val
    if ¬ b then
      .ok ["date ".data ++ pyRepr date_val ++
        " must be a FHIR instant (YYYY-MM-DDTHH:MM:SSZ)".data]
    else .ok []
  else .ok []

/-- Validator block 7: content non-empty and, when the first attachment
    carries data, that data strict-base64-decodes.  Only binascii.Error
    is caught into the error list: a non-ASCII string makes b64decode
    raise a plain ValueError and a non-string data value a TypeError,
    both escaping the validator uncaught. -/
def checkContent (doc_ref : JObj) : Except PyExc (List Str) := do
  let content := jdictGet doc_ref "content".data (JVal.arr .nil)
  if ¬ content.truthy then
    .ok ["content must have at least one entry".data]
  else do
    let c0 ← content.index 0
    let att ← c0.get "attachment".data (JVal.obj .nil)
    let b64_data ← att.get "data".data (JVal.s [])
    if b64_data.truthy then
      match b64_data with
      | .s v =>
        if v.any (fun c => 127 < c.toNat) then .error (.valueError b64AsciiErrStr)
        else if (b64DecodeStrict v).isNone then
          .ok ["content[0].attachment.data is not valid base64".data]
        else .ok []
      | w => .error (.typeError (b64TypeErrMsg w))
    else .ok []

/-- Per-index reference checking shared by the context.encounter and
    author loops (enumerate with error per failing index). -/
def checkRefListGo (label : Str) : Nat → List JVal → Except PyExc (List Str)
  | _, [] => .ok []
  | i, enc :: rest => do
    let ref ← enc.get "reference".data (JVal.s [])
    let b ← pyReMatch fhirReferenceMatch ref
    let tail ← checkRefListGo label (i + 1) rest
    let here :=
      if ¬ b then
        [label ++ "[".data ++ natStr i ++ "].reference ".data ++ pyRepr ref ++
          " must match ".data ++ pyReprStr "ResourceType/id".data]
      else []
    .ok (here ++ tail)

/-- Validator block 8: every context.encounter entry matches the
    reference pattern (skipped entirely when context is not a dict). -/
def checkEncounter (doc_ref : JObj) : Except PyExc (List Str) := do
  let ctx := jdictGet doc_ref "context".data JVal.null
  let enc_refs ←
    if ctx.isObj then ctx.get "encounter".data (JVal.arr .nil)
    else pure (JVal.arr .nil)
  let items ← enc_refs.pyIter
  checkRefListGo "context.encounter".data 0 items

/-- Validator block 9: every author entry matches the reference
    pattern. -/
def checkAuthor (doc_ref : JObj) : Except PyExc (List Str) := do
  let au := jdictGet doc_ref "author".data (JVal.arr .nil)
  let items ← au.pyIter
  checkRefListGo "author".data 0 items

/-- The error list accumulated by validate_r4_schema, run in sequence
    over the nine source blocks; an uncaught Python exception anywhere
    aborts the whole validation. -/
def validate_errors (doc_ref : JObj) : Except PyExc (List Str) := do
  let l1 := checkResourceType doc_ref
  let l2 ← checkStatus doc_ref
  let l3 ← checkDocStatus doc_ref
  let l4 ← checkTypeCoding doc_ref
  let l5 ← checkSubject doc_ref
  let l6 ← checkDate doc_ref
  let l7 ← checkContent doc_ref
  let l8 ← checkEncounter doc_ref
  let l9 ← checkAuthor doc_ref
  .ok (l1 ++ l2 ++ l3 ++ l4 ++ l5 ++ l6 ++ l7 ++ l8 ++ l9)

/-- Outcome of validate_r4_schema: success, a FHIRValidationError with
    its error count and message, or an uncaught Python exception. -/
inductive VRes where
  | ok
  | schemaErr (n : Nat) (msg : Str)
  | raised (e : PyExc)

/-- The FHIRValidationError message listing every error. -/
def validationMsg (errors : List Str) : Str :=
  "FHIR R4 DocumentReference validation failed (".data ++ natStr errors.length ++
    " error(s)):\n  - ".data ++ pyJoin "\n  - ".data errors

/-- DocumentReferenceBuilder.validate_r4_schema. -/
def DocumentReferenceBuilder.validate_r4_schema (doc_ref : JObj) : VRes :=
  match validate_errors doc_ref with
  | .error e => .raised e
  | .ok [] => .ok
  | .ok errs => .schemaErr errs.length (validationMsg errs)

-- ----------------------------------------------------------------------
-- document_reference.py: from_transcript and decode_content
-- ----------------------------------------------------------------------

/-- Outcome of from_transcript: the built dict, the ValueError raised on
    an empty identifier, a FHIRValidationError propagated from the
    self-check, or an uncaught Python exception. -/
inductive BuildRes where
  | ok (doc_ref : JObj)
  | invalidArgument (msg : Str)
  | schemaErr (n : Nat) (msg : Str)
  | raised (e : PyExc)

/-- The resource dict assembled by from_transcript before the optional
    author entry: LOINC lookup with silent progress-note fallback,
    formatted transcript base64-encoded from its UTF-8 bytes, fixed
    status current and docStatus final, typed subject and encounter
    references, and the captured clock as the date. -/
def builtBase (utterances : List Utterance) (patient_id encounter_id : Str)
    (now : UtcNow) (doc_type_code title : Str) : JObj :=
  let loinc_code := (assocGet DOC_TYPE_LOINC doc_type_code).getD _LOINC_PROGRESS_NOTE
  let transcript := _format_transcript utterances
  let encoded_data := b64Encode (utf8Encode transcript)
  let now_iso := nowIso now
  JObj.ofL
    [("resourceType".data, JVal.s "DocumentReference".data),
     ("status".data, JVal.s "current".data),
     ("docStatus".data, JVal.s "final".data),
     ("type".data, JVal.mkObj [("coding".data, JVal.mkArr [JVal.mkObj
         [("system".data, JVal.s _LOINC_SYSTEM),
          ("code".data, JVal.s loinc_code),
          ("display".data, JVal.s (_loinc_display loinc_code))]])]),
     ("subject".data, JVal.mkObj
         [("reference".data, JVal.s ("Patient/".data ++ patient_id))]),
     ("date".data, JVal.s now_iso),
     ("content".data, JVal.mkArr [JVal.mkObj [("attachment".data, JVal.mkObj
         [("contentType".data, JVal.s "text/plain".data),
          ("data".data, JVal.s encoded_data),
          ("title".data, JVal.s title)])]]),
     ("context".data, JVal.mkObj [("encounter".data, JVal.mkArr [JVal.mkObj
         [("reference".data, JVal.s ("Encounter/".data ++ encounter_id))]])])]

/-- DocumentReferenceBuilder.from_transcript, with the captured clock
    value passed explicitly: reject blank identifiers, assemble the
    dict, append the author entry when a practitioner id is supplied and
    truthy, and fail fast through validate_r4_schema before returning. -/
def DocumentReferenceBuilder.from_transcript
    (utterances : List Utterance) (patient_id encounter_id : Str) (now : UtcNow)
    (doc_type_code : Str := "progress_note".data)
    (author_practitioner_id : Option Str := Option.none)
    (title : Str := "Clinical Transcription".data) : BuildRes :=
  if patient_id.isEmpty || (pyStrip patient_id).isEmpty then
    .invalidArgument "patient_id must not be empty".data
  else if encounter_id.isEmpty || (pyStrip encounter_id).isEmpty then
    .invalidArgument "encounter_id must not be empty".data
  else
    let base := builtBase utterances patient_id encounter_id now doc_type_code title
    let doc_ref : JObj :=
      match author_practitioner_id with
      | some a =>
        if ¬ a.isEmpty then
          JObj.ofL (base.toList ++ [("author".data, JVal.mkArr [JVal.mkObj
            [("reference".data, JVal.s ("Practitioner/".data ++ a))]])])
        else base
      | Option.none => base
    match DocumentReferenceBuilder.validate_r4_schema doc_ref with
    | .ok => .ok doc_ref
    | .schemaErr n m => .schemaErr n m
    | .raised e => .raised e

/-- Python d[key] on a top-level dict. -/
def jobjGetItem (d : JObj) (key : Str) : Except PyExc JVal :=
  match jLookup d key with
  | some x => .ok x
  | Option.none => .error (.keyError key)

/-- Outcome of decode_content: the decoded text, the ValueError it
    raises on missing keys or malformed content, or an uncaught Python
    exception. -/
inductive DecRes where
  | ok (t : Str)
  | decodeError (msg : Str)
  | raised (e : PyExc)

/-- The nested extraction doc_ref[content][0][attachment][data]. -/
def extractData (doc_ref : JObj) : Except PyExc JVal := do
  let c ← jobjGetItem doc_ref "content".data
  let c0 ← c.index 0
  let att ← c0.getItem "attachment".data
  att.getItem "data".data

/-- The DecodeError message prefix of decode_content. -/
def decodePrefix : Str := "Cannot decode DocumentReference content: ".data

/-- DocumentReferenceBuilder.decode_content: extract and base64-decode
    content[0].attachment.data, then decode the bytes as UTF-8;
    KeyError, IndexError and ValueError (the ASCII-argument, binascii
    and unicode errors all being ValueError) are caught and re-raised as
    the DecodeError with str() of the cause appended; TypeError and
    AttributeError propagate uncaught. -/
def DocumentReferenceBuilder.decode_content (doc_ref : JObj) : DecRes :=
  match extractData doc_ref with
  | .error (.keyError k) => .decodeError (decodePrefix ++ pyReprStr k)
  | .error (.indexError m) => .decodeError (decodePrefix ++ m)
  | .error e => .raised e
  | .ok (JVal.s v) =>
    match b64DecodeLenient v with
    | .error m => .decodeError (decodePrefix ++ m)
    | .ok bytes =>
      match utf8Decode bytes with
      | .ok t => .ok t
      | .error m => .decodeError (decodePrefix ++ m)
  | .ok w => .raised (.typeError (b64TypeErrMsg w))

-- ----------------------------------------------------------------------
-- hl7/mdm_builder.py and hl7/oru_builder.py
-- ----------------------------------------------------------------------

/-- The two time-derived strings of the HL7 builders: ts is
    strftime of YYYYMMDDHHMMSS, tsMicro the same with microseconds
    appended; passed explicitly in place of datetime.now. -/
structure Hl7Now where
  ts : Str
  tsMicro : Str

/-- MSH-1 field separator. -/
def FIELD_SEP : Str := "|".data

/-- MSH-2 encoding characters. -/
def ENCODING_CHARS : Str := "^~\\&".data

/-- Python s or t: s unless s is falsy. -/
def pyOrStr (a : Option Str) (b : Str) : Str :=
  match a with
  | some v => if v.isEmpty then b else v
  | Option.none => b

/-- The OBX escaping line shared by MDMBuilder._obx and ORUBuilder._obx:
    replace pipe with the field-separator escape, then carriage return
    and newline each with a space. -/
def hl7EscapeTranscript (transcript : Str) : Str :=
  pyReplace1 (pyReplace1 (pyReplace1 transcript '|' "\\F\\".data) '\r' " ".data) '\n' " ".data

/-- MDMBuilder._msh. -/
def MDMBuilder.msh (ts msg_id sending_app sending_facility receiving_app receiving_facility : Str) : Str :=
  "MSH".data ++ FIELD_SEP ++ ENCODING_CHARS ++ FIELD_SEP ++ sending_app ++ FIELD_SEP ++
    sending_facility ++ FIELD_SEP ++ receiving_app ++ FIELD_SEP ++ receiving_facility ++
    FIELD_SEP ++ ts ++ FIELD_SEP ++ FIELD_SEP ++ "MDM^T02".data ++ FIELD_SEP ++ msg_id ++
    FIELD_SEP ++ "P".data ++ FIELD_SEP ++ "2.5.1".data

/-- MDMBuilder._evn. -/
def MDMBuilder.evn (ts : Str) : Str := "EVN||".data ++ ts

/-- MDMBuilder._pid: the patient identifier is inserted verbatim. -/
def MDMBuilder.pid (patient_id : Str) : Str :=
  "PID|1||".data ++ patient_id ++ "^^^MRN||LastName^FirstName|||U".data

/-- MDMBuilder._pv1. -/
def MDMBuilder.pv1 (visit_id provider_npi : Str) : Str :=
  "PV1|1|I|^^^WARD^^BED||||||".data ++ provider_npi ++ "^Provider^Name||||||||".data ++
    visit_id

/-- MDMBuilder._txa. -/
def MDMBuilder.txa (ts doc_id provider_npi : Str) : Str :=
  "TXA|1|PN^Progress Note|TX|".data ++ ts ++ "|".data ++ provider_npi ++
    "^Provider^Name|".data ++ ts ++ "|".data ++ ts ++ "||".data ++ doc_id ++ "||".data ++
    doc_id ++ "|AU||AV".data

/-- MDMBuilder._obx: the escaped transcript as OBX-5. -/
def MDMBuilder.obx (transcript : Str) : Str :=
  "OBX|1|TX|18842-5^Discharge summary^LN||".data ++ hl7EscapeTranscript transcript ++
    "||||||F".data

/-- MDMBuilder.build_t02, with the clock strings passed explicitly. -/
def MDMBuilder.build_t02 (transcript patient_id visit_id provider_npi : Str)
    (now : Hl7Now)
    (document_id : Option Str := Option.none)
    (sending_app : Str := "DEEPGRAM".data)
    (sending_facility : Str := "EHR".data)
    (receiving_app : Str := "EHR_SYSTEM".data)
    (receiving_facility : Str := "FACILITY".data) : Str :=
  let ts := now.ts
  let msg_id := "MSG".data ++ now.tsMicro.take 18
  let doc_id := pyOrStr document_id ("DOC".data ++ now.tsMicro.take 18)
  pyJoin "\r".data
    [MDMBuilder.msh ts msg_id sending_app sending_facility receiving_app receiving_facility,
     MDMBuilder.evn ts,
     MDMBuilder.pid patient_id,
     MDMBuilder.pv1 visit_id provider_npi,
     MDMBuilder.txa ts doc_id provider_npi,
     MDMBuilder.obx transcript]

/-- ORUBuilder._msh. -/
def ORUBuilder.msh (ts msg_id sending_app sending_facility receiving_app receiving_facility : Str) : Str :=
  "MSH".data ++ FIELD_SEP ++ ENCODING_CHARS ++ FIELD_SEP ++ sending_app ++ FIELD_SEP ++
    sending_facility ++ FIELD_SEP ++ receiving_app ++ FIELD_SEP ++ receiving_facility ++
    FIELD_SEP ++ ts ++ FIELD_SEP ++ FIELD_SEP ++ "ORU^R01".data ++ FIELD_SEP ++ msg_id ++
    FIELD_SEP ++ "P".data ++ FIELD_SEP ++ "2.5.1".data

/-- ORUBuilder._pid: the patient identifier is inserted verbatim. -/
def ORUBuilder.pid (patient_id : Str) : Str :=
  "PID|1||".data ++ patient_id ++ "^^^MRN||LastName^FirstName|||U".data

/-- ORUBuilder._obr. -/
def ORUBuilder.obr (order_id ts provider_npi loinc_code loinc_display : Str) : Str :=
  "OBR|1|".data ++ order_id ++ "||".data ++ loinc_code ++ "^".data ++ loinc_display ++
    "^LN|||".data ++ ts ++ "|||".data ++ provider_npi ++ "^Provider^Name".data

/-- ORUBuilder._obx: the escaped transcript as OBX-5. -/
def ORUBuilder.obx (transcript loinc_code loinc_display : Str) : Str :=
  "OBX|1|TX|".data ++ loinc_code ++ "^".data ++ loinc_display ++ "^LN||".data ++
    hl7EscapeTranscript transcript ++ "||||||F".data

/-- ORUBuilder.build_r01, with the clock strings passed explicitly. -/
def ORUBuilder.build_r01 (transcript patient_id order_id provider_npi : Str)
    (now : Hl7Now)
    (loinc_code : Str := "11506-3".data)
    (loinc_display : Str := "Progress note".data)
    (sending_app : Str := "DEEPGRAM".data)
    (sending_facility : Str := "EHR".data)
    (receiving_app : Str := "EHR_SYSTEM".data)
    (receiving_facility : Str := "FACILITY".data) : Str :=
  let ts := now.ts
  let msg_id := "MSG".data ++ now.tsMicro.take 18
  pyJoin "\r".data
    [ORUBuilder.msh ts msg_id sending_app sending_facility receiving_app receiving_facility,
     ORUBuilder.pid patient_id,
     ORUBuilder.obr order_id ts provider_npi loinc_code loinc_display,
     ORUBuilder.obx transcript loinc_code loinc_display]

/-- Extractor for type.coding[0].code of a resource dict. -/
def codingCode (doc_ref : JObj) : Option Str :=
  match jLookup doc_ref "type".data with
  | some (JVal.obj t) =>
    match jLookup t "coding".data with
    | some (JVal.arr (JList.cons (JVal.obj c0) _)) =>
      match jLookup c0 "code".data with
      | some (JVal.s code) => some code
      | _ => Option.none
    | _ => Option.none
  | _ => Option.none

/-- The single-pass reading of the escaping contract: each pipe becomes
    the field-separator escape, each carriage return or newline a single
    space, every other character is kept. -/
def hl7EscapeChar (c : Char) : Str :=
  if c = '|' then "\\F\\".data
  else if c = '\r' ∨ c = '\n' then [' ']
  else [c]

/-- An otherwise well-formed resource whose subject value is a plain
    string instead of a mapping. -/
def docSubjectString : JObj := JObj.ofL
  [("resourceType".data, JVal.s "DocumentReference".data),
   ("status".data, JVal.s "current".data),
   ("subject".data, JVal.s "Patient/123".data),
   ("date".data, JVal.s "2024-01-02T03:04:05Z".data),
   ("content".data, JVal.mkArr [JVal.mkObj [("attachment".data, JVal.mkObj
       [("data".data, JVal.s "aGk=".data)])]]),
   ("context".data, JVal.mkObj [("encounter".data, JVal.arr .nil)])]

/-- An otherwise well-formed resource whose author list contains a plain
    string entry instead of a mapping. -/
def docAuthorString : JObj := JObj.ofL
  [("resourceType".data, JVal.s "DocumentReference".data),
   ("status".data, JVal.s "current".data),
   ("type".data, JVal.mkObj [("coding".data, JVal.mkArr [JVal.mkObj
       [("system".data, JVal.s _LOINC_SYSTEM), ("code".data, JVal.s "11506-3".data)]])]),
   ("subject".data, JVal.mkObj [("reference".data, JVal.s "Patient/123".data)]),
   ("content".data, JVal.mkArr [JVal.mkObj [("attachment".data, JVal.mkObj
       [("data".data, JVal.s "aGk=".data)])]]),
   ("author".data, JVal.mkArr [JVal.s "Practitioner/1".data])]

/-- A concrete clock value for the HL7 builder examples. -/
def nowH : Hl7Now := { ts := "20240102030405".data, tsMicro := "20240102030405123456".data }

/-- The single utterance of the concrete scenario in the specification:
    speaker 0, transcript Good morning, from half a second to
    three-point-two seconds (Python floats 0.5 and 3.2 modelled as the
    rationals they stand for). -/
def uGoodMorning : Utterance :=
  { speaker := 0, transcript := "Good morning".data, start := mkRat 1 2,
    end_ := mkRat 16 5, confidence := mkRat 49 50 }

/-- A concrete clock value for the builder examples. -/
def nowC : UtcNow := { year := 2024, month := 1, day := 2, hour := 3, minute := 4, second := 5 }

/-- The single validation error produced when the patient id contains an
    interior newline. -/
def c3msg : Str :=
  "subject.reference ".data ++ pyRepr (JVal.s ("Patient/a\nb".data)) ++
    " must match ".data ++ pyReprStr "ResourceType/id".data

/-- A resource with exactly the three violations of the specification
    example: a bad status, a malformed subject reference, and invalid
    base64 attachment data. -/
def docBadThree : JObj := JObj.ofL
  [("resourceType".data, JVal.s "DocumentReference".data),
   ("status".data, JVal.s "draft".data),
   ("docStatus".data, JVal.s "final".data),
   ("type".data, JVal.mkObj [("coding".data, JVal.mkArr [JVal.mkObj
       [("system".data, JVal.s _LOINC_SYSTEM), ("code".data, JVal.s "11506-3".data)]])]),
   ("subject".data, JVal.mkObj [("reference".data, JVal.s "patient-123".data)]),
   ("date".data, JVal.s "2024-01-02T03:04:05Z".data),
   ("content".data, JVal.mkArr [JVal.mkObj [("attachment".data, JVal.mkObj
       [("data".data, JVal.s "!!!".data)])]]),
   ("context".data, JVal.mkObj [("encounter".data, JVal.arr .nil)])]

/-- The bad-status error of docBadThree. -/
def c1mStatus : Str :=
  "status ".data ++ pyRepr (JVal.s "draft".data) ++ " is not a valid R4 code: ".data ++
    pyReprStrSet _VALID_STATUSES

/-- The malformed-subject error of docBadThree. -/
def c1mSubject : Str :=
  "subject.reference ".data ++ pyRepr (JVal.s "patient-123".data) ++ " must match ".data ++
    pyReprStr "ResourceType/id".data

/-- The invalid-base64 error of docBadThree. -/
def c1mB64 : Str := "content[0].attachment.data is not valid base64".data

/-- A minimal resource carrying the base64 of hi. -/
def docDecodeDemo : JObj := JObj.ofL
  [("content".data, JVal.mkArr [JVal.mkObj [("attachment".data, JVal.mkObj
      [("data".data, JVal.s "aGk=".data)])]])]

/-- A resource whose payload ends three data characters into a base64
    group: incorrect padding. -/
def docBadPad : JObj := JObj.ofL
  [("content".data, JVal.mkArr [JVal.mkObj [("attachment".data, JVal.mkObj
      [("data".data, JVal.s "aGk".data)])]])]

/-- A resource whose payload ends one data character into a base64
    group: the data-character-count error. -/
def docBadOne : JObj := JObj.ofL
  [("content".data, JVal.mkArr [JVal.mkObj [("attachment".data, JVal.mkObj
      [("data".data, JVal.s "a".data)])]])]

/-- A resource whose payload holds a non-ASCII character: b64decode
    raises its ASCII-argument ValueError before decoding anything. -/
def docNonAsciiPayload : JObj := JObj.ofL
  [("content".data, JVal.mkArr [JVal.mkObj [("attachment".data, JVal.mkObj
      [("data".data, JVal.s "aGk=é".data)])]])]

/-- A resource whose payload decodes to the byte 0x80, which is not
    UTF-8. -/
def docBadUtf8 : JObj := JObj.ofL
  [("content".data, JVal.mkArr [JVal.mkObj [("attachment".data, JVal.mkObj
      [("data".data, JVal.s "gA==".data)])]])]

/-- A resource with a genuine rule violation (a bad status) and
    non-ASCII attachment data: the validator dies on the uncaught
    ValueError instead of aggregating. -/
def docBadStatusNonAscii : JObj := JObj.ofL
  [("resourceType".data, JVal.s "DocumentReference".data),
   ("status".data, JVal.s "draft".data),
   ("docStatus".data, JVal.s "final".data),
   ("type".data, JVal.mkObj [("coding".data, JVal.mkArr [JVal.mkObj
       [("system".data, JVal.s _LOINC_SYSTEM), ("code".data, JVal.s "11506-3".data)]])]),
   ("subject".data, JVal.mkObj [("reference".data, JVal.s "Patient/p1".data)]),
   ("date".data, JVal.s "2024-01-02T03:04:05Z".data),
   ("content".data, JVal.mkArr [JVal.mkObj [("attachment".data, JVal.mkObj
       [("data".data, JVal.s "é".data)])]]),
   ("context".data, JVal.mkObj [("encounter".data, JVal.arr .nil)])]

/-- Spec-form character class: a word character as the claim words it
    (regex word class: letters, digits, underscore). -/
def isWordChar (c : Char) : Bool := isAsciiAlpha c || isAsciiDigit c || c = '_'

/-- The shape the claim describes, written from the claim words alone:
    a capitalized resource type (an uppercase letter then word
    characters), a slash, then at least one character. -/
def claimRefForm (v : Str) : Bool :=
  match v with
  | [] => false
  | c0 :: rest =>
    isUpperAlpha c0 && (rest.dropWhile isWordChar).head? = some '/' &&
    !(rest.dropWhile isWordChar).tail.isEmpty

-- ----------------------------------------------------------------------
-- Theorems
-- ----------------------------------------------------------------------

theorem pySplitChar_ne_nil (sep : Char) (s : Str) : pySplitChar sep s ≠ [] := by
  cases s with
  | nil => simp [pySplitChar]
  | cons c rest =>
    simp only [pySplitChar]
    rcases h : pySplitChar sep rest with _ | ⟨h1, t1⟩
    · simp
    · by_cases hc : c = sep <;> simp [hc]

theorem pySplitChar_no_sep (sep : Char) (s : Str) (h : sep ∉ s) :
    pySplitChar sep s = [s] := by
  induction s with
  | nil => rfl
  | cons c rest ih =>
    have hc : c ≠ sep := fun he => h (he ▸ List.mem_cons_self c rest)
    have hr : sep ∉ rest := fun hm => h (List.mem_cons_of_mem c hm)
    simp only [pySplitChar, ih hr]
    simp [hc]

theorem pySplitChar_append_sep (sep : Char) (a b : Str) (h : sep ∉ a) :
    pySplitChar sep (a ++ sep :: b) = a :: pySplitChar sep b := by
  induction a with
  | nil =>
    simp only [List.nil_append, pySplitChar]
    rcases hb : pySplitChar sep b with _ | ⟨h1, t1⟩
    · exact absurd hb (pySplitChar_ne_nil sep b)
    · simp
  | cons c rest ih =>
    have hc : c ≠ sep := fun he => h (he ▸ List.mem_cons_self c rest)
    have hr : sep ∉ rest := fun hm => h (List.mem_cons_of_mem c hm)
    simp only [List.cons_append, pySplitChar]
    rw [List.append_eq, ih hr]
    simp [hc]

theorem isInfix_append_left (x a b : Str) (h : List.IsInfix x b) :
    List.IsInfix x (a ++ b) := by
  obtain ⟨s, t, hst⟩ := h
  exact ⟨a ++ s, t, by rw [← hst]; simp⟩

theorem isInfix_append_right (x a b : Str) (h : List.IsInfix x a) :
    List.IsInfix x (a ++ b) := by
  obtain ⟨s, t, hst⟩ := h
  exact ⟨s, t ++ b, by rw [← hst]; simp⟩

theorem isInfix_refl (x : Str) : List.IsInfix x x := ⟨[], [], by simp⟩

theorem mem_isInfix_pyJoin (sep : Str) (xs : List Str) (x : Str) (h : x ∈ xs) :
    List.IsInfix x (pyJoin sep xs) := by
  induction xs with
  | nil => cases h
  | cons y rest ih =>
    rcases List.mem_cons.mp h with rfl | hmem
    · cases rest with
      | nil => exact isInfix_refl x
      | cons z zs =>
        simp only [pyJoin]
        exact isInfix_append_right x _ _ (isInfix_append_right x _ _ (isInfix_refl x))
    · cases rest with
      | nil => cases hmem
      | cons z zs =>
        simp only [pyJoin]
        rw [List.append_assoc]
        exact isInfix_append_left x _ _ (isInfix_append_left x _ _ (ih hmem))

theorem b64Idx_b64Char : ∀ i : Nat, i < 64 → b64Idx (b64Char i) = some i := by decide

theorem b64ValidChar_b64Char : ∀ i : Nat, i < 64 → b64ValidChar (b64Char i) = true := by decide

theorem b64Char_ne_pad : ∀ i : Nat, i < 64 → b64Char i ≠ '=' := by decide

theorem b64Go_b64Encode (bytes : List Nat) (h : ∀ b ∈ bytes, b < 256) :
    ∀ n, b64Go n 0 0 0 (b64Encode bytes) = Except.ok bytes := by
  induction bytes using b64Encode.induct with
  | case1 b1 b2 b3 rest ih =>
    intro n
    have h1 : b1 < 256 := h b1 (by simp)
    have h2 : b2 < 256 := h b2 (by simp)
    have h3 : b3 < 256 := h b3 (by simp)
    have hrest : ∀ b ∈ rest, b < 256 := fun b hb => h b (by simp [hb])
    have e1 := b64Idx_b64Char (b1 / 4) (by omega)
    have e2 := b64Idx_b64Char ((b1 % 4) * 16 + b2 / 16) (by omega)
    have e3 := b64Idx_b64Char ((b2 % 16) * 4 + b3 / 64) (by omega)
    have e4 := b64Idx_b64Char (b3 % 64) (by omega)
    simp only [b64Encode]
    simp only [b64Go, e1, e2, e3, e4]
    try norm_num
    rw [ih hrest]
    try simp [Except.map]
    all_goals try and_intros
    all_goals first | rfl | omega
  | case2 b1 b2 =>
    intro n
    have h1 : b1 < 256 := h b1 (by simp)
    have h2 : b2 < 256 := h b2 (by simp)
    have e1 := b64Idx_b64Char (b1 / 4) (by omega)
    have e2 := b64Idx_b64Char ((b1 % 4) * 16 + b2 / 16) (by omega)
    have e3 := b64Idx_b64Char ((b2 % 16) * 4) (by omega)
    have npad : b64Idx '=' = Option.none := by decide
    simp only [b64Encode]
    simp only [b64Go, e1, e2, e3, npad]
    try norm_num
    try simp
    all_goals try and_intros
    all_goals first | rfl | omega
  | case3 b1 =>
    intro n
    have h1 : b1 < 256 := h b1 (by simp)
    have e1 := b64Idx_b64Char (b1 / 4) (by omega)
    have e2 := b64Idx_b64Char ((b1 % 4) * 16) (by omega)
    have npad : b64Idx '=' = Option.none := by decide
    simp only [b64Encode]
    simp only [b64Go, e1, e2, npad]
    try norm_num
    try simp
    all_goals first | rfl | omega
  | case4 =>
    intro n
    simp only [b64Encode, b64Go]
    try norm_num

theorem takeWhile_all_append (p : Char → Bool) (core rest : Str)
    (h : ∀ c ∈ core, p c = true) :
    (core ++ rest).takeWhile p = core ++ rest.takeWhile p := by
  induction core with
  | nil => simp
  | cons c cs ih =>
    have hc : p c = true := h c (by simp)
    simp only [List.cons_append, List.takeWhile_cons, hc]
    rw [ih (fun x hx => h x (by simp [hx]))]
    simp

/-- Structure of b64Encode output: alphabet characters followed by zero,
    one or two padding characters. -/
theorem b64Encode_shape (bytes : List Nat) (h : ∀ b ∈ bytes, b < 256) :
    ∃ core pads, b64Encode bytes = core ++ pads ∧
      (∀ c ∈ core, b64ValidChar c = true) ∧
      (pads = [] ∨ pads = ['='] ∨ pads = ['=', '=']) := by
  induction bytes using b64Encode.induct with
  | case1 b1 b2 b3 rest ih =>
    have h1 : b1 < 256 := h b1 (by simp)
    have h2 : b2 < 256 := h b2 (by simp)
    have h3 : b3 < 256 := h b3 (by simp)
    obtain ⟨core, pads, he, hcore, hpads⟩ := ih (fun b hb => h b (by simp [hb]))
    refine ⟨b64Char (b1 / 4) :: b64Char ((b1 % 4) * 16 + b2 / 16) ::
      b64Char ((b2 % 16) * 4 + b3 / 64) :: b64Char (b3 % 64) :: core, pads, ?_, ?_, hpads⟩
    · simp [b64Encode, he]
    · intro c hc
      simp only [List.mem_cons] at hc
      rcases hc with rfl | rfl | rfl | rfl | hc
      · exact b64ValidChar_b64Char _ (by omega)
      · exact b64ValidChar_b64Char _ (by omega)
      · exact b64ValidChar_b64Char _ (by omega)
      · exact b64ValidChar_b64Char _ (by omega)
      · exact hcore c hc
  | case2 b1 b2 =>
    have h1 : b1 < 256 := h b1 (by simp)
    have h2 : b2 < 256 := h b2 (by simp)
    refine ⟨[b64Char (b1 / 4), b64Char ((b1 % 4) * 16 + b2 / 16), b64Char ((b2 % 16) * 4)],
      ['='], by simp [b64Encode], ?_, by simp⟩
    intro c hc
    simp only [List.mem_cons, List.not_mem_nil, or_false] at hc
    rcases hc with rfl | rfl | rfl
    · exact b64ValidChar_b64Char _ (by omega)
    · exact b64ValidChar_b64Char _ (by omega)
    · exact b64ValidChar_b64Char _ (by omega)
  | case3 b1 =>
    have h1 : b1 < 256 := h b1 (by simp)
    refine ⟨[b64Char (b1 / 4), b64Char ((b1 % 4) * 16)], ['=', '='],
      by simp [b64Encode], ?_, by simp⟩
    intro c hc
    simp only [List.mem_cons, List.not_mem_nil, or_false] at hc
    rcases hc with rfl | rfl
    · exact b64ValidChar_b64Char _ (by omega)
    · exact b64ValidChar_b64Char _ (by omega)
  | case4 =>
    exact ⟨[], [], by simp [b64Encode], by simp, by simp⟩

theorem b64ValidateShape_of_parts (core pads : Str)
    (hcore : ∀ c ∈ core, b64ValidChar c = true)
    (hpads : pads = [] ∨ pads = ['='] ∨ pads = ['=', '=']) :
    b64ValidateShape (core ++ pads) = true := by
  have hpadchar : b64ValidChar '=' = false := by decide
  have htake : (core ++ pads).takeWhile b64ValidChar = core ++ pads.takeWhile b64ValidChar :=
    takeWhile_all_append _ _ _ hcore
  have hptake : pads.takeWhile b64ValidChar = [] := by
    rcases hpads with rfl | rfl | rfl <;> simp [List.takeWhile_cons, hpadchar]
  unfold b64ValidateShape
  rw [htake, hptake, List.append_nil, List.drop_left]
  rcases hpads with rfl | rfl | rfl <;> simp

theorem b64ValidateShape_b64Encode (bytes : List Nat) (h : ∀ b ∈ bytes, b < 256) :
    b64ValidateShape (b64Encode bytes) = true := by
  obtain ⟨core, pads, he, hcore, hpads⟩ := b64Encode_shape bytes h
  rw [he]
  exact b64ValidateShape_of_parts core pads hcore hpads

theorem b64Encode_head_valid (b1 : Nat) (h1 : b1 < 256) (rest : List Nat) :
    ∃ c tl, b64Encode (b1 :: rest) = c :: tl ∧ b64ValidChar c = true := by
  have hv := b64ValidChar_b64Char (b1 / 4) (by omega)
  cases rest with
  | nil => exact ⟨_, _, rfl, hv⟩
  | cons b2 rest2 =>
    cases rest2 with
    | nil => exact ⟨_, _, rfl, hv⟩
    | cons b3 rest3 => exact ⟨_, _, rfl, hv⟩

theorem b64DecodeStrict_b64Encode (bytes : List Nat) (h : ∀ b ∈ bytes, b < 256) :
    b64DecodeStrict (b64Encode bytes) = some bytes := by
  unfold b64DecodeStrict
  rw [b64ValidateShape_b64Encode bytes h]
  simp only [Bool.true_eq_false, if_false]
  cases bytes with
  | nil => simp [b64Encode, b64Go, Except.toOption]
  | cons b1 rest =>
    obtain ⟨c, tl, he, hc⟩ := b64Encode_head_valid b1 (h b1 (by simp)) rest
    rw [if_neg ?hne]
    case hne =>
      intro hand
      rw [he] at hand
      simp only [List.takeWhile_cons, hc, ne_eq] at hand
      exact absurd hand.2 (by simp)
    rw [b64Go_b64Encode (b1 :: rest) h 0]
    rfl

theorem b64Char_ascii : ∀ i : Nat, i < 64 → ((b64Char i).toNat ≤ 127) := by decide

theorem b64Encode_ascii (bytes : List Nat) (h : ∀ b ∈ bytes, b < 256) :
    ∀ c ∈ b64Encode bytes, c.toNat ≤ 127 := by
  induction bytes using b64Encode.induct with
  | case1 b1 b2 b3 rest ih =>
    have h1 : b1 < 256 := h b1 (by simp)
    have h2 : b2 < 256 := h b2 (by simp)
    have h3 : b3 < 256 := h b3 (by simp)
    have hrest : ∀ b ∈ rest, b < 256 := fun b hb => h b (by simp [hb])
    intro c hc
    simp only [b64Encode, List.mem_cons] at hc
    rcases hc with rfl | rfl | rfl | rfl | hc
    · exact b64Char_ascii _ (by omega)
    · exact b64Char_ascii _ (by omega)
    · exact b64Char_ascii _ (by omega)
    · exact b64Char_ascii _ (by omega)
    · exact ih hrest c hc
  | case2 b1 b2 =>
    have h1 : b1 < 256 := h b1 (by simp)
    have h2 : b2 < 256 := h b2 (by simp)
    intro c hc
    simp only [b64Encode, List.mem_cons] at hc
    rcases hc with rfl | rfl | rfl | rfl | hc
    · exact b64Char_ascii _ (by omega)
    · exact b64Char_ascii _ (by omega)
    · exact b64Char_ascii _ (by omega)
    · decide
    · cases hc
  | case3 b1 =>
    have h1 : b1 < 256 := h b1 (by simp)
    intro c hc
    simp only [b64Encode, List.mem_cons] at hc
    rcases hc with rfl | rfl | rfl | rfl | hc
    · exact b64Char_ascii _ (by omega)
    · exact b64Char_ascii _ (by omega)
    · decide
    · decide
    · cases hc
  | case4 =>
    intro c hc
    cases hc

theorem b64DecodeLenient_b64Encode (bytes : List Nat) (h : ∀ b ∈ bytes, b < 256) :
    b64DecodeLenient (b64Encode bytes) = Except.ok bytes := by
  unfold b64DecodeLenient
  rw [if_neg ?hascii]
  case hascii =>
    intro hex
    rw [List.any_eq_true] at hex
    obtain ⟨c, hc, hgt⟩ := hex
    have hle := b64Encode_ascii bytes h c hc
    have hgt2 : 127 < c.toNat := by simpa using hgt
    omega
  exact b64Go_b64Encode bytes h 0

theorem char_toNat_valid (c : Char) :
    c.toNat < 55296 ∨ (57344 ≤ c.toNat ∧ c.toNat < 1114112) := by
  have h := c.valid
  have he : c.toNat = c.val.toNat := rfl
  rw [he]
  rcases h with h | h
  · left; omega
  · right; omega

theorem utf8EncodeChar_bytes_lt (c : Char) : ∀ b ∈ utf8EncodeChar c, b < 256 := by
  have hv := char_toNat_valid c
  intro b hb
  unfold utf8EncodeChar at hb
  by_cases h1 : c.toNat < 128
  · rw [if_pos h1] at hb
    simp only [List.mem_cons, List.not_mem_nil, or_false] at hb
    omega
  · rw [if_neg h1] at hb
    by_cases h2 : c.toNat < 2048
    · rw [if_pos h2] at hb
      simp only [List.mem_cons, List.not_mem_nil, or_false] at hb
      rcases hb with rfl | rfl <;> omega
    · rw [if_neg h2] at hb
      by_cases h3 : c.toNat < 65536
      · rw [if_pos h3] at hb
        simp only [List.mem_cons, List.not_mem_nil, or_false] at hb
        rcases hb with rfl | rfl | rfl <;> omega
      · rw [if_neg h3] at hb
        simp only [List.mem_cons, List.not_mem_nil, or_false] at hb
        rcases hb with rfl | rfl | rfl | rfl <;> omega

theorem utf8Encode_bytes_lt (s : Str) : ∀ b ∈ utf8Encode s, b < 256 := by
  intro b hb
  unfold utf8Encode at hb
  obtain ⟨c, _, hbc⟩ := List.mem_flatMap.mp hb
  exact utf8EncodeChar_bytes_lt c b hbc

theorem utf8Run_ascii {b pos : Nat} {rest : List Nat} (h : b < 128) :
    utf8Run U8State.boundary pos (b :: rest) =
      (utf8Run U8State.boundary (pos + 1) rest).map (fun t => Char.ofNat b :: t) := by
  simp only [utf8Run]
  rw [if_pos h]

theorem utf8Run_start2 {b pos : Nat} {rest : List Nat} (h1 : 194 ≤ b) (h2 : b < 224) :
    utf8Run U8State.boundary pos (b :: rest) =
      utf8Run (U8State.mid b pos 1 (b - 192) 128 191 0) (pos + 1) rest := by
  simp only [utf8Run]
  rw [if_neg (by omega)]
  rw [if_neg (by omega)]
  rw [if_pos h2]

theorem utf8Run_startE0 {b pos : Nat} {rest : List Nat} (h : b = 224) :
    utf8Run U8State.boundary pos (b :: rest) =
      utf8Run (U8State.mid b pos 2 (b - 224) 160 191 0) (pos + 1) rest := by
  simp only [utf8Run]
  rw [if_neg (by omega)]
  rw [if_neg (by omega)]
  rw [if_neg (by omega)]
  rw [if_pos h]

theorem utf8Run_startED {b pos : Nat} {rest : List Nat} (h : b = 237) :
    utf8Run U8State.boundary pos (b :: rest) =
      utf8Run (U8State.mid b pos 2 (b - 224) 128 159 0) (pos + 1) rest := by
  simp only [utf8Run]
  rw [if_neg (by omega)]
  rw [if_neg (by omega)]
  rw [if_neg (by omega)]
  rw [if_neg (by omega)]
  rw [if_pos h]

theorem utf8Run_start3 {b pos : Nat} {rest : List Nat} (h1 : 225 ≤ b) (h2 : b < 240)
    (h3 : b ≠ 237) :
    utf8Run U8State.boundary pos (b :: rest) =
      utf8Run (U8State.mid b pos 2 (b - 224) 128 191 0) (pos + 1) rest := by
  simp only [utf8Run]
  rw [if_neg (by omega)]
  rw [if_neg (by omega)]
  rw [if_neg (by omega)]
  rw [if_neg (by omega)]
  rw [if_neg h3]
  rw [if_pos h2]

theorem utf8Run_startF0 {b pos : Nat} {rest : List Nat} (h : b = 240) :
    utf8Run U8State.boundary pos (b :: rest) =
      utf8Run (U8State.mid b pos 3 (b - 240) 144 191 0) (pos + 1) rest := by
  simp only [utf8Run]
  rw [if_neg (by omega)]
  rw [if_neg (by omega)]
  rw [if_neg (by omega)]
  rw [if_neg (by omega)]
  rw [if_neg (by omega)]
  rw [if_neg (by omega)]
  rw [if_pos h]

theorem utf8Run_startF4 {b pos : Nat} {rest : List Nat} (h : b = 244) :
    utf8Run U8State.boundary pos (b :: rest) =
      utf8Run (U8State.mid b pos 3 (b - 240) 128 143 0) (pos + 1) rest := by
  simp only [utf8Run]
  rw [if_neg (by omega)]
  rw [if_neg (by omega)]
  rw [if_neg (by omega)]
  rw [if_neg (by omega)]
  rw [if_neg (by omega)]
  rw [if_neg (by omega)]
  rw [if_neg (by omega)]
  rw [if_pos h]

theorem utf8Run_startF13 {b pos : Nat} {rest : List Nat} (h1 : 241 ≤ b) (h2 : b ≤ 243) :
    utf8Run U8State.boundary pos (b :: rest) =
      utf8Run (U8State.mid b pos 3 (b - 240) 128 191 0) (pos + 1) rest := by
  simp only [utf8Run]
  rw [if_neg (by omega)]
  rw [if_neg (by omega)]
  rw [if_neg (by omega)]
  rw [if_neg (by omega)]
  rw [if_neg (by omega)]
  rw [if_neg (by omega)]
  rw [if_neg (by omega)]
  rw [if_neg (by omega)]
  rw [if_pos (by omega)]

theorem utf8Run_contLast {sb sp cur lo hi k b pos : Nat} {rest : List Nat}
    (h : lo ≤ b ∧ b ≤ hi) :
    utf8Run (U8State.mid sb sp 1 cur lo hi k) pos (b :: rest) =
      (utf8Run U8State.boundary (pos + 1) rest).map
        (fun t => Char.ofNat (cur * 64 + (b - 128)) :: t) := by
  simp only [utf8Run]
  rw [if_pos h]
  rw [if_pos trivial]

theorem utf8Run_cont2 {sb sp cur lo hi k b pos : Nat} {rest : List Nat}
    (h : lo ≤ b ∧ b ≤ hi) :
    utf8Run (U8State.mid sb sp 2 cur lo hi k) pos (b :: rest) =
      utf8Run (U8State.mid sb sp 1 (cur * 64 + (b - 128)) 128 191 (k + 1))
        (pos + 1) rest := by
  simp only [utf8Run]
  rw [if_pos h]
  norm_num

theorem utf8Run_cont3 {sb sp cur lo hi k b pos : Nat} {rest : List Nat}
    (h : lo ≤ b ∧ b ≤ hi) :
    utf8Run (U8State.mid sb sp 3 cur lo hi k) pos (b :: rest) =
      utf8Run (U8State.mid sb sp 2 (cur * 64 + (b - 128)) 128 191 (k + 1))
        (pos + 1) rest := by
  simp only [utf8Run]
  rw [if_pos h]
  norm_num

theorem utf8Run_encodeChar_append (c : Char) (bs : List Nat) (pos : Nat) :
    utf8Run U8State.boundary pos (utf8EncodeChar c ++ bs) =
      (utf8Run U8State.boundary (pos + (utf8EncodeChar c).length) bs).map
        (fun t => c :: t) := by
  have hv := char_toNat_valid c
  have hofnat : Char.ofNat c.toNat = c := Char.ofNat_toNat c
  by_cases h1 : c.toNat < 128
  · unfold utf8EncodeChar
    rw [if_pos h1]
    simp only [List.cons_append, List.nil_append, List.length_cons, List.length_nil,
      Nat.zero_add]
    rw [utf8Run_ascii h1, hofnat]
  · by_cases h2 : c.toNat < 2048
    · have hn : (192 + c.toNat / 64 - 192) * 64 + (128 + c.toNat % 64 - 128) = c.toNat := by
        omega
      unfold utf8EncodeChar
      rw [if_neg h1, if_pos h2]
      simp only [List.cons_append, List.nil_append, List.length_cons, List.length_nil,
        Nat.zero_add]
      rw [utf8Run_start2 (by omega) (by omega)]
      rw [utf8Run_contLast ⟨by omega, by omega⟩]
      rw [hn, hofnat]
    · by_cases h3 : c.toNat < 65536
      · have hn : ((224 + c.toNat / 4096 - 224) * 64 + (128 + c.toNat / 64 % 64 - 128)) * 64 +
            (128 + c.toNat % 64 - 128) = c.toNat := by omega
        unfold utf8EncodeChar
        rw [if_neg h1, if_neg h2, if_pos h3]
        simp only [List.cons_append, List.nil_append, List.length_cons, List.length_nil,
          Nat.zero_add]
        by_cases hE0 : c.toNat < 4096
        · rw [utf8Run_startE0 (by omega)]
          rw [utf8Run_cont2 ⟨by omega, by omega⟩]
          rw [utf8Run_contLast ⟨by omega, by omega⟩]
          rw [hn, hofnat]
        · by_cases hD1 : c.toNat < 53248
          · rw [utf8Run_start3 (by omega) (by omega) (by omega)]
            rw [utf8Run_cont2 ⟨by omega, by omega⟩]
            rw [utf8Run_contLast ⟨by omega, by omega⟩]
            rw [hn, hofnat]
          · by_cases hD2 : c.toNat < 55296
            · rw [utf8Run_startED (by omega)]
              rw [utf8Run_cont2 ⟨by omega, by omega⟩]
              rw [utf8Run_contLast ⟨by omega, by omega⟩]
              rw [hn, hofnat]
            · rw [utf8Run_start3 (by omega) (by omega) (by omega)]
              rw [utf8Run_cont2 ⟨by omega, by omega⟩]
              rw [utf8Run_contLast ⟨by omega, by omega⟩]
              rw [hn, hofnat]
      · have hn : (((240 + c.toNat / 262144 - 240) * 64 + (128 + c.toNat / 4096 % 64 - 128)) * 64 +
            (128 + c.toNat / 64 % 64 - 128)) * 64 + (128 + c.toNat % 64 - 128) = c.toNat := by
          omega
        unfold utf8EncodeChar
        rw [if_neg h1, if_neg h2, if_neg h3]
        simp only [List.cons_append, List.nil_append, List.length_cons, List.length_nil,
          Nat.zero_add]
        by_cases hF0 : c.toNat < 262144
        · rw [utf8Run_startF0 (by omega)]
          rw [utf8Run_cont3 ⟨by omega, by omega⟩]
          rw [utf8Run_cont2 ⟨by omega, by omega⟩]
          rw [utf8Run_contLast ⟨by omega, by omega⟩]
          rw [hn, hofnat]
        · by_cases hF4 : c.toNat < 1048576
          · rw [utf8Run_startF13 (by omega) (by omega)]
            rw [utf8Run_cont3 ⟨by omega, by omega⟩]
            rw [utf8Run_cont2 ⟨by omega, by omega⟩]
            rw [utf8Run_contLast ⟨by omega, by omega⟩]
            rw [hn, hofnat]
          · rw [utf8Run_startF4 (by omega)]
            rw [utf8Run_cont3 ⟨by omega, by omega⟩]
            rw [utf8Run_cont2 ⟨by omega, by omega⟩]
            rw [utf8Run_contLast ⟨by omega, by omega⟩]
            rw [hn, hofnat]

theorem utf8Run_encode_all (s : Str) :
    ∀ pos, utf8Run U8State.boundary pos (utf8Encode s) = Except.ok s := by
  induction s with
  | nil => intro pos; rfl
  | cons c rest ih =>
    intro pos
    unfold utf8Encode
    simp only [List.flatMap_cons]
    rw [show rest.flatMap utf8EncodeChar = utf8Encode rest from rfl]
    rw [utf8Run_encodeChar_append c (utf8Encode rest) pos, ih]
    rfl

theorem utf8Decode_utf8Encode (s : Str) : utf8Decode (utf8Encode s) = Except.ok s :=
  utf8Run_encode_all s 0

-- ----------------------------------------------------------------------
-- Lemmas: reference and instant matchers
-- ----------------------------------------------------------------------

theorem dropWhile_all_append (p : Char → Bool) (core rest : Str)
    (h : ∀ c ∈ core, p c = true) :
    (core ++ rest).dropWhile p = rest.dropWhile p := by
  induction core with
  | nil => simp
  | cons c cs ih =>
    have hc : p c = true := h c (by simp)
    simp only [List.cons_append, List.dropWhile_cons, hc]
    exact ih (fun x hx => h x (by simp [hx]))

theorem getLast?_ne_of_not_mem (b : Str) (c : Char) (h : c ∉ b) : b.getLast? ≠ some c := by
  intro hc
  exact h (List.mem_of_mem_getLast? (by rw [hc]; exact rfl))

theorem dotPlusThenEnd_of (b : Str) (h1 : b ≠ []) (h2 : '\n' ∉ b) :
    dotPlusThenEnd b = true := by
  unfold dotPlusThenEnd
  rw [if_neg (getLast?_ne_of_not_mem b '\n' h2)]
  simp only [Bool.and_eq_true, Bool.not_eq_true', List.all_eq_true]
  constructor
  · simp [List.isEmpty_iff, h1]
  · intro c hc
    simp only [decide_eq_true_eq]
    intro he
    exact h2 (he ▸ hc)

theorem fhirReferenceMatch_build (c0 : Char) (w body t : Str)
    (h0 : isUpperAlpha c0 = true) (hw : w ≠ []) (hwa : ∀ c ∈ w, isAsciiAlpha c = true)
    (hb : body ≠ []) (hbn : '\n' ∉ body) (ht : t = [] ∨ t = ['\n']) :
    fhirReferenceMatch (c0 :: (w ++ '/' :: (body ++ t))) = true := by
  have hslash : isAsciiAlpha '/' = false := by decide
  simp only [fhirReferenceMatch]
  rw [takeWhile_all_append isAsciiAlpha w ('/' :: (body ++ t)) hwa]
  rw [dropWhile_all_append isAsciiAlpha w ('/' :: (body ++ t)) hwa]
  simp only [List.takeWhile_cons, List.dropWhile_cons, hslash]
  simp only [Bool.false_eq_true, if_false, List.append_nil, List.head?_cons, List.tail_cons]
  rw [Bool.and_eq_true, Bool.and_eq_true, Bool.and_eq_true]
  refine ⟨⟨⟨h0, ?_⟩, by simp⟩, ?_⟩
  · simp only [Bool.not_eq_true']
    simp [List.isEmpty_iff, hw]
  · rcases ht with rfl | rfl
    · rw [List.append_nil]
      exact dotPlusThenEnd_of body hb hbn
    · unfold dotPlusThenEnd
      rw [List.getLast?_concat, if_pos rfl, List.dropLast_concat]
      simp only [Bool.and_eq_true, Bool.not_eq_true', List.all_eq_true]
      refine ⟨by simp [List.isEmpty_iff, hb], ?_⟩
      intro c hc
      simp only [decide_eq_true_eq]
      intro he
      exact hbn (he ▸ hc)

theorem fhirReferenceMatch_patient (pid : Str) (h1 : pid ≠ []) (h2 : '\n' ∉ pid) :
    fhirReferenceMatch ("Patient/".data ++ pid) = true := by
  have he : "Patient/".data ++ pid = 'P' :: ("atient".data ++ '/' :: (pid ++ [])) := by
    simp
  rw [he]
  exact fhirReferenceMatch_build 'P' "atient".data pid [] (by decide) (by decide)
    (by decide) h1 h2 (Or.inl rfl)

theorem fhirReferenceMatch_encounter (eid : Str) (h1 : eid ≠ []) (h2 : '\n' ∉ eid) :
    fhirReferenceMatch ("Encounter/".data ++ eid) = true := by
  have he : "Encounter/".data ++ eid = 'E' :: ("ncounter".data ++ '/' :: (eid ++ [])) := by
    simp
  rw [he]
  exact fhirReferenceMatch_build 'E' "ncounter".data eid [] (by decide) (by decide)
    (by decide) h1 h2 (Or.inl rfl)

theorem isAsciiDigit_digitChar_mod (n : Nat) :
    isAsciiDigit (Nat.digitChar (n % 10)) = true := by
  have h : n % 10 < 10 := Nat.mod_lt n (by omega)
  have : ∀ m : Nat, m < 10 → isAsciiDigit (Nat.digitChar m) = true := by decide
  exact this (n % 10) h

theorem fhirInstantMatch_nowIso (t : UtcNow) : fhirInstantMatch (nowIso t) = true := by
  unfold nowIso pad4 pad2
  simp only [List.cons_append, List.nil_append]
  simp only [fhirInstantMatch, fhirTzMatch]
  simp only [List.all_cons, List.all_nil, isAsciiDigit_digitChar_mod, Bool.and_self,
    Bool.and_true, Bool.true_and]
  rfl

-- ----------------------------------------------------------------------
-- Lemmas: the built resource passes every validator block
-- ----------------------------------------------------------------------

theorem loinc_code_ne_nil (dtc : Str) :
    (assocGet DOC_TYPE_LOINC dtc).getD _LOINC_PROGRESS_NOTE ≠ [] := by
  simp only [DOC_TYPE_LOINC, assocGet]
  split_ifs <;> decide

theorem checkResourceType_built (utts : List Utterance) (pid eid : Str) (now : UtcNow)
    (dtc title : Str) :
    checkResourceType (builtBase utts pid eid now dtc title) = [] := by
  simp +decide [checkResourceType, builtBase, JObj.ofL, jdictGet, jLookup, jvalNeStr]

theorem checkStatus_built (utts : List Utterance) (pid eid : Str) (now : UtcNow)
    (dtc title : Str) :
    checkStatus (builtBase utts pid eid now dtc title) = .ok [] := by
  simp +decide [checkStatus, builtBase, JObj.ofL, jdictGet, jLookup, JVal.truthy,
    pyInStrSet, _VALID_STATUSES, Bind.bind, Except.instMonad, Except.bind]

theorem checkDocStatus_built (utts : List Utterance) (pid eid : Str) (now : UtcNow)
    (dtc title : Str) :
    checkDocStatus (builtBase utts pid eid now dtc title) = .ok [] := by
  simp +decide [checkDocStatus, builtBase, JObj.ofL, jdictGet, jLookup, JVal.truthy,
    pyInStrSet, _VALID_DOC_STATUSES, Bind.bind, Except.instMonad, Except.bind]

theorem checkTypeCoding_built (utts : List Utterance) (pid eid : Str) (now : UtcNow)
    (dtc title : Str) :
    checkTypeCoding (builtBase utts pid eid now dtc title) = .ok [] := by
  have h := loinc_code_ne_nil dtc
  simp +decide [checkTypeCoding, builtBase, JObj.ofL, jdictGet, jLookup, JVal.truthy,
    JVal.get, JVal.index, JVal.mkObj, JVal.mkArr, JList.ofL, JList.toList, jvalNeStr,
    Bind.bind, Except.instMonad, Except.bind, h]

theorem checkSubject_built (utts : List Utterance) (pid eid : Str) (now : UtcNow)
    (dtc title : Str) (hp1 : pid ≠ []) (hp2 : '\n' ∉ pid) :
    checkSubject (builtBase utts pid eid now dtc title) = .ok [] := by
  simp +decide [checkSubject, builtBase, JObj.ofL, jdictGet, jLookup, JVal.truthy,
    JVal.get, JVal.mkObj, JList.ofL, pyReMatch,
    Bind.bind, Except.instMonad, Except.bind]
  exact fhirReferenceMatch_patient pid hp1 hp2

theorem checkDate_built (utts : List Utterance) (pid eid : Str) (now : UtcNow)
    (dtc title : Str) :
    checkDate (builtBase utts pid eid now dtc title) = .ok [] := by
  have h := fhirInstantMatch_nowIso now
  simp +decide [checkDate, builtBase, JObj.ofL, jdictGet, jLookup, JVal.truthy,
    pyReMatch, Bind.bind, Except.instMonad, Except.bind, h]

theorem checkContent_built (utts : List Utterance) (pid eid : Str) (now : UtcNow)
    (dtc title : Str) :
    checkContent (builtBase utts pid eid now dtc title) = .ok [] := by
  have h := b64DecodeStrict_b64Encode (utf8Encode (_format_transcript utts))
    (utf8Encode_bytes_lt (_format_transcript utts))
  have hasc := b64Encode_ascii (utf8Encode (_format_transcript utts))
    (utf8Encode_bytes_lt (_format_transcript utts))
  simp +decide [checkContent, builtBase, JObj.ofL, jdictGet, jLookup, JVal.truthy,
    JVal.get, JVal.index, JVal.mkObj, JVal.mkArr, JObj.toList, JList.toList, JList.ofL,
    Bind.bind, Except.instMonad, Except.bind, h]
  intro _
  exact hasc

theorem checkEncounter_built (utts : List Utterance) (pid eid : Str) (now : UtcNow)
    (dtc title : Str) (he1 : eid ≠ []) (he2 : '\n' ∉ eid) :
    checkEncounter (builtBase utts pid eid now dtc title) = .ok [] := by
  simp +decide [checkEncounter, builtBase, JObj.ofL, jdictGet, jLookup, JVal.truthy,
    JVal.get, JVal.isObj, JVal.mkObj, JVal.mkArr, JList.ofL, JList.toList, JVal.pyIter,
    checkRefListGo, pyReMatch, Bind.bind, Except.instMonad, Except.bind]
  exact fhirReferenceMatch_encounter eid he1 he2

theorem checkAuthor_built (utts : List Utterance) (pid eid : Str) (now : UtcNow)
    (dtc title : Str) :
    checkAuthor (builtBase utts pid eid now dtc title) = .ok [] := by
  simp +decide [checkAuthor, builtBase, JObj.ofL, jdictGet, jLookup,
    JVal.pyIter, JList.toList, checkRefListGo, Bind.bind, Except.instMonad, Except.bind]

theorem validate_built (utts : List Utterance) (pid eid : Str) (now : UtcNow)
    (dtc title : Str) (hp1 : pid ≠ []) (hp2 : '\n' ∉ pid) (he1 : eid ≠ []) (he2 : '\n' ∉ eid) :
    DocumentReferenceBuilder.validate_r4_schema (builtBase utts pid eid now dtc title) =
      VRes.ok := by
  unfold DocumentReferenceBuilder.validate_r4_schema validate_errors
  rw [checkResourceType_built, checkStatus_built, checkDocStatus_built,
    checkTypeCoding_built, checkSubject_built utts pid eid now dtc title hp1 hp2,
    checkDate_built, checkContent_built,
    checkEncounter_built utts pid eid now dtc title he1 he2, checkAuthor_built]
  rfl

theorem pyStrip_nil : pyStrip [] = [] := rfl

theorem ne_nil_of_strip_ne_nil (s : Str) (h : pyStrip s ≠ []) : s ≠ [] := by
  intro he
  exact h (he ▸ pyStrip_nil)

theorem from_transcript_ok (utts : List Utterance) (pid eid : Str) (now : UtcNow)
    (dtc title : Str) (hp1 : pyStrip pid ≠ []) (hp2 : '\n' ∉ pid)
    (he1 : pyStrip eid ≠ []) (he2 : '\n' ∉ eid) :
    DocumentReferenceBuilder.from_transcript utts pid eid now dtc Option.none title =
      BuildRes.ok (builtBase utts pid eid now dtc title) := by
  unfold DocumentReferenceBuilder.from_transcript
  rw [if_neg ?hg1]
  case hg1 =>
    simp only [Bool.or_eq_true, List.isEmpty_iff]
    rintro (h | h)
    · exact ne_nil_of_strip_ne_nil pid hp1 h
    · exact hp1 h
  rw [if_neg ?hg2]
  case hg2 =>
    simp only [Bool.or_eq_true, List.isEmpty_iff]
    rintro (h | h)
    · exact ne_nil_of_strip_ne_nil eid he1 h
    · exact he1 h
  simp only []
  rw [validate_built utts pid eid now dtc title (ne_nil_of_strip_ne_nil pid hp1) hp2
    (ne_nil_of_strip_ne_nil eid he1) he2]

theorem extractData_built (utts : List Utterance) (pid eid : Str) (now : UtcNow)
    (dtc title : Str) :
    extractData (builtBase utts pid eid now dtc title) =
      .ok (JVal.s (b64Encode (utf8Encode (_format_transcript utts)))) := by
  simp +decide [extractData, builtBase, JObj.ofL, jobjGetItem, jLookup, JVal.index,
    JVal.getItem, JVal.mkObj, JVal.mkArr, JList.ofL, JList.toList,
    Bind.bind, Except.instMonad, Except.bind]

theorem decode_content_built (utts : List Utterance) (pid eid : Str) (now : UtcNow)
    (dtc title : Str) :
    DocumentReferenceBuilder.decode_content (builtBase utts pid eid now dtc title) =
      DecRes.ok (_format_transcript utts) := by
  unfold DocumentReferenceBuilder.decode_content
  rw [extractData_built]
  simp only []
  rw [b64DecodeLenient_b64Encode _ (utf8Encode_bytes_lt _)]
  simp only []
  rw [utf8Decode_utf8Encode]

theorem codingCode_built (utts : List Utterance) (pid eid : Str) (now : UtcNow)
    (dtc title : Str) :
    codingCode (builtBase utts pid eid now dtc title) =
      some ((assocGet DOC_TYPE_LOINC dtc).getD _LOINC_PROGRESS_NOTE) := by
  simp +decide [codingCode, builtBase, JObj.ofL, jLookup, JVal.mkObj, JVal.mkArr,
    JList.ofL]

-- ----------------------------------------------------------------------
-- Lemmas: HL7 transcript escaping
-- ----------------------------------------------------------------------

theorem flatMap_flatMap (l : Str) (f g : Char → Str) :
    (l.flatMap f).flatMap g = l.flatMap (fun c => (f c).flatMap g) := by
  induction l with
  | nil => rfl
  | cons c rest ih => simp [List.flatMap_cons, ih]

theorem hl7EscapeTranscript_eq_flatMap (t : Str) :
    hl7EscapeTranscript t = t.flatMap hl7EscapeChar := by
  unfold hl7EscapeTranscript pyReplace1
  rw [flatMap_flatMap, flatMap_flatMap]
  apply List.flatMap_congr
  intro c _
  by_cases h1 : c = '|'
  · subst h1; decide
  · by_cases h2 : c = '\r'
    · subst h2; decide
    · by_cases h3 : c = '\n'
      · subst h3; decide
      · simp [hl7EscapeChar, h1, h2, h3]

theorem hl7EscapeChar_clean (c x : Char) (hx : x = '|' ∨ x = '\r' ∨ x = '\n') :
    x ∉ hl7EscapeChar c := by
  unfold hl7EscapeChar
  by_cases h1 : c = '|'
  · rw [if_pos h1]
    rcases hx with rfl | rfl | rfl <;> decide
  · rw [if_neg h1]
    by_cases h2 : c = '\r' ∨ c = '\n'
    · rw [if_pos h2]
      rcases hx with rfl | rfl | rfl <;> decide
    · rw [if_neg h2]
      intro hm
      simp only [List.mem_singleton] at hm
      subst hm
      rcases hx with rfl | rfl | rfl
      · exact h1 rfl
      · exact h2 (Or.inl rfl)
      · exact h2 (Or.inr rfl)

theorem hl7Escape_clean (t : Str) (x : Char) (hx : x = '|' ∨ x = '\r' ∨ x = '\n') :
    x ∉ hl7EscapeTranscript t := by
  rw [hl7EscapeTranscript_eq_flatMap]
  intro hm
  obtain ⟨c, _, hc⟩ := List.mem_flatMap.mp hm
  exact hl7EscapeChar_clean c x hx hc

-- ----------------------------------------------------------------------
-- Lemmas: HL7 message field and segment structure
-- ----------------------------------------------------------------------

theorem mdm_obx_fields (transcript : Str) :
    pySplitChar '|' (MDMBuilder.obx transcript) =
      ["OBX".data, "1".data, "TX".data, "18842-5^Discharge summary^LN".data, [],
       hl7EscapeTranscript transcript, [], [], [], [], [], "F".data] := by
  have hpipe : '|' ∉ hl7EscapeTranscript transcript :=
    hl7Escape_clean transcript '|' (Or.inl rfl)
  have h1 : MDMBuilder.obx transcript =
      "OBX".data ++ '|' :: ("1".data ++ '|' :: ("TX".data ++ '|' ::
        ("18842-5^Discharge summary^LN".data ++ '|' :: ([] ++ '|' ::
          (hl7EscapeTranscript transcript ++ '|' :: ([] ++ '|' :: ([] ++ '|' ::
            ([] ++ '|' :: ([] ++ '|' :: ([] ++ '|' :: "F".data)))))))))) := rfl
  rw [h1]
  rw [pySplitChar_append_sep '|' "OBX".data _ (by decide)]
  rw [pySplitChar_append_sep '|' "1".data _ (by decide)]
  rw [pySplitChar_append_sep '|' "TX".data _ (by decide)]
  rw [pySplitChar_append_sep '|' "18842-5^Discharge summary^LN".data _ (by decide)]
  rw [pySplitChar_append_sep '|' [] _ (by decide)]
  rw [pySplitChar_append_sep '|' (hl7EscapeTranscript transcript) _ hpipe]
  rw [pySplitChar_append_sep '|' [] _ (by decide)]
  rw [pySplitChar_append_sep '|' [] _ (by decide)]
  rw [pySplitChar_append_sep '|' [] _ (by decide)]
  rw [pySplitChar_append_sep '|' [] _ (by decide)]
  rw [pySplitChar_append_sep '|' [] _ (by decide)]
  rw [pySplitChar_no_sep '|' "F".data (by decide)]

theorem oru_obx_fields (transcript loinc_code loinc_display : Str)
    (hc : '|' ∉ loinc_code) (hd : '|' ∉ loinc_display) :
    pySplitChar '|' (ORUBuilder.obx transcript loinc_code loinc_display) =
      ["OBX".data, "1".data, "TX".data,
       loinc_code ++ "^".data ++ loinc_display ++ "^LN".data, [],
       hl7EscapeTranscript transcript, [], [], [], [], [], "F".data] := by
  have hpipe : '|' ∉ hl7EscapeTranscript transcript :=
    hl7Escape_clean transcript '|' (Or.inl rfl)
  have hfield : '|' ∉ loinc_code ++ "^".data ++ loinc_display ++ "^LN".data := by
    intro hm
    rcases List.mem_append.mp hm with hm | hm
    · rcases List.mem_append.mp hm with hm | hm
      · rcases List.mem_append.mp hm with hm | hm
        · exact hc hm
        · exact absurd hm (by decide)
      · exact hd hm
    · exact absurd hm (by decide)
  have h1 : ORUBuilder.obx transcript loinc_code loinc_display =
      "OBX".data ++ '|' :: ("1".data ++ '|' :: ("TX".data ++ '|' ::
        ((loinc_code ++ "^".data ++ loinc_display ++ "^LN".data) ++ '|' :: ([] ++ '|' ::
          (hl7EscapeTranscript transcript ++ '|' :: ([] ++ '|' :: ([] ++ '|' ::
            ([] ++ '|' :: ([] ++ '|' :: ([] ++ '|' :: "F".data)))))))))) := by
    unfold ORUBuilder.obx
    simp only [List.append_assoc]
    rfl
  rw [h1]
  rw [pySplitChar_append_sep '|' "OBX".data _ (by decide)]
  rw [pySplitChar_append_sep '|' "1".data _ (by decide)]
  rw [pySplitChar_append_sep '|' "TX".data _ (by decide)]
  rw [pySplitChar_append_sep '|'
    (loinc_code ++ "^".data ++ loinc_display ++ "^LN".data) _ hfield]
  rw [pySplitChar_append_sep '|' [] _ (by decide)]
  rw [pySplitChar_append_sep '|' (hl7EscapeTranscript transcript) _ hpipe]
  rw [pySplitChar_append_sep '|' [] _ (by decide)]
  rw [pySplitChar_append_sep '|' [] _ (by decide)]
  rw [pySplitChar_append_sep '|' [] _ (by decide)]
  rw [pySplitChar_append_sep '|' [] _ (by decide)]
  rw [pySplitChar_append_sep '|' [] _ (by decide)]
  rw [pySplitChar_no_sep '|' "F".data (by decide)]

theorem not_mem_take (c : Char) (l : Str) (n : Nat) (h : c ∉ l) : c ∉ l.take n :=
  fun hm => h (List.mem_of_mem_take hm)

theorem mdm_segments (transcript pid vid npi ts micro : Str) (docId : Option Str)
    (sa sf ra rf : Str)
    (hpid : '\r' ∉ pid) (hvid : '\r' ∉ vid) (hnpi : '\r' ∉ npi) (hts : '\r' ∉ ts)
    (hmicro : '\r' ∉ micro) (hdoc : ∀ s, docId = some s → '\r' ∉ s)
    (hsa : '\r' ∉ sa) (hsf : '\r' ∉ sf) (hra : '\r' ∉ ra) (hrf : '\r' ∉ rf) :
    pySplitChar '\r'
        (MDMBuilder.build_t02 transcript pid vid npi ⟨ts, micro⟩ docId sa sf ra rf) =
      [MDMBuilder.msh ts ("MSG".data ++ micro.take 18) sa sf ra rf,
       MDMBuilder.evn ts, MDMBuilder.pid pid, MDMBuilder.pv1 vid npi,
       MDMBuilder.txa ts (pyOrStr docId ("DOC".data ++ micro.take 18)) npi,
       MDMBuilder.obx transcript] := by
  have htake : '\r' ∉ micro.take 18 := not_mem_take _ _ _ hmicro
  have hmsgid : '\r' ∉ "MSG".data ++ micro.take 18 := by
    intro hm
    rcases List.mem_append.mp hm with h | h
    · exact absurd h (by decide)
    · exact htake h
  have hdocid : '\r' ∉ pyOrStr docId ("DOC".data ++ micro.take 18) := by
    unfold pyOrStr
    cases docId with
    | none =>
      intro hm
      rcases List.mem_append.mp hm with h | h
      · exact absurd h (by decide)
      · exact htake h
    | some s =>
      simp only []
      by_cases hs : s.isEmpty
      · rw [if_pos hs]
        intro hm
        rcases List.mem_append.mp hm with h | h
        · exact absurd h (by decide)
        · exact htake h
      · rw [if_neg hs]
        exact hdoc s rfl
  have hmsgid2 : '\r' ∉ ('M' :: 'S' :: 'G' :: List.take 18 micro) := hmsgid
  have hdocid2 : '\r' ∉ pyOrStr docId ('D' :: 'O' :: 'C' :: List.take 18 micro) := hdocid
  have hmsh : '\r' ∉ MDMBuilder.msh ts ("MSG".data ++ micro.take 18) sa sf ra rf := by
    unfold MDMBuilder.msh FIELD_SEP ENCODING_CHARS
    simp +decide [List.mem_append, hsa, hsf, hra, hrf, hts, hmsgid2, htake]
  have hevn : '\r' ∉ MDMBuilder.evn ts := by
    unfold MDMBuilder.evn
    simp +decide [List.mem_append, hts]
  have hpidseg : '\r' ∉ MDMBuilder.pid pid := by
    unfold MDMBuilder.pid
    simp +decide [List.mem_append, hpid]
  have hpv1 : '\r' ∉ MDMBuilder.pv1 vid npi := by
    unfold MDMBuilder.pv1
    simp +decide [List.mem_append, hvid, hnpi]
  have htxa : '\r' ∉ MDMBuilder.txa ts (pyOrStr docId ("DOC".data ++ micro.take 18)) npi := by
    unfold MDMBuilder.txa
    simp +decide [List.mem_append, hts, hnpi, hdocid2, htake]
  have hcr : ∀ X : Str, "\r".data ++ X = '\r' :: X := fun _ => rfl
  unfold MDMBuilder.build_t02
  simp only [pyJoin, List.append_assoc, hcr]
  rw [pySplitChar_append_sep '\r' _ _ hmsh]
  rw [pySplitChar_append_sep '\r' _ _ hevn]
  rw [pySplitChar_append_sep '\r' _ _ hpidseg]
  rw [pySplitChar_append_sep '\r' _ _ hpv1]
  rw [pySplitChar_append_sep '\r' _ _ htxa]
  rw [pySplitChar_no_sep '\r' _ ?hobx]
  case hobx =>
    unfold MDMBuilder.obx
    simp +decide [List.mem_append]
    intro hm
    exact hl7Escape_clean transcript '\r' (Or.inr (Or.inl rfl)) hm

theorem oru_segments (transcript pid oid npi ts micro code disp : Str)
    (sa sf ra rf : Str)
    (hpid : '\r' ∉ pid) (hoid : '\r' ∉ oid) (hnpi : '\r' ∉ npi) (hts : '\r' ∉ ts)
    (hmicro : '\r' ∉ micro) (hcode : '\r' ∉ code) (hdisp : '\r' ∉ disp)
    (hsa : '\r' ∉ sa) (hsf : '\r' ∉ sf) (hra : '\r' ∉ ra) (hrf : '\r' ∉ rf) :
    pySplitChar '\r'
        (ORUBuilder.build_r01 transcript pid oid npi ⟨ts, micro⟩ code disp sa sf ra rf) =
      [ORUBuilder.msh ts ("MSG".data ++ micro.take 18) sa sf ra rf,
       ORUBuilder.pid pid, ORUBuilder.obr oid ts npi code disp,
       ORUBuilder.obx transcript code disp] := by
  have htake : '\r' ∉ micro.take 18 := not_mem_take _ _ _ hmicro
  have hmsgid : '\r' ∉ "MSG".data ++ micro.take 18 := by
    intro hm
    rcases List.mem_append.mp hm with h | h
    · exact absurd h (by decide)
    · exact htake h
  have hmsgid2 : '\r' ∉ ('M' :: 'S' :: 'G' :: List.take 18 micro) := hmsgid
  have hmsh : '\r' ∉ ORUBuilder.msh ts ("MSG".data ++ micro.take 18) sa sf ra rf := by
    unfold ORUBuilder.msh FIELD_SEP ENCODING_CHARS
    simp +decide [List.mem_append, hsa, hsf, hra, hrf, hts, hmsgid2, htake]
  have hpidseg : '\r' ∉ ORUBuilder.pid pid := by
    unfold ORUBuilder.pid
    simp +decide [List.mem_append, hpid]
  have hobr : '\r' ∉ ORUBuilder.obr oid ts npi code disp := by
    unfold ORUBuilder.obr
    simp +decide [List.mem_append, hoid, hts, hnpi, hcode, hdisp]
  have hobx : '\r' ∉ ORUBuilder.obx transcript code disp := by
    unfold ORUBuilder.obx
    simp +decide [List.mem_append, hcode, hdisp]
    intro hm
    exact hl7Escape_clean transcript '\r' (Or.inr (Or.inl rfl)) hm
  have hcr : ∀ X : Str, "\r".data ++ X = '\r' :: X := fun _ => rfl
  unfold ORUBuilder.build_r01
  simp only [pyJoin, List.append_assoc, hcr]
  rw [pySplitChar_append_sep '\r' _ _ hmsh]
  rw [pySplitChar_append_sep '\r' _ _ hpidseg]
  rw [pySplitChar_append_sep '\r' _ _ hobr]
  rw [pySplitChar_no_sep '\r' _ hobx]

-- ----------------------------------------------------------------------
-- Claim theorems
-- ----------------------------------------------------------------------

/-- Claim C7: from_transcript fails with the InvalidArgument error naming
    patient_id whenever patient_id is empty or blank after trimming,
    whatever every other argument is (so before any resource construction
    or validation), and likewise for encounter_id once patient_id passes;
    the error message names the offending field. -/
theorem claim_C7 (utterances : List Utterance) (patient_id encounter_id : Str)
    (now : UtcNow) (doc_type_code : Str) (author_practitioner_id : Option Str)
    (title : Str) :
    (pyStrip patient_id = [] →
      DocumentReferenceBuilder.from_transcript utterances patient_id encounter_id now
          doc_type_code author_practitioner_id title =
        BuildRes.invalidArgument "patient_id must not be empty".data ∧
      List.IsInfix "patient_id".data "patient_id must not be empty".data) ∧
    (pyStrip patient_id ≠ [] → pyStrip encounter_id = [] →
      DocumentReferenceBuilder.from_transcript utterances patient_id encounter_id now
          doc_type_code author_practitioner_id title =
        BuildRes.invalidArgument "encounter_id must not be empty".data ∧
      List.IsInfix "encounter_id".data "encounter_id must not be empty".data) := by
  constructor
  · intro hp
    constructor
    · unfold DocumentReferenceBuilder.from_transcript
      rw [if_pos (by simp [List.isEmpty_iff, hp])]
    · exact ⟨[], " must not be empty".data, rfl⟩
  · intro hp he
    constructor
    · unfold DocumentReferenceBuilder.from_transcript
      rw [if_neg ?hg1]
      case hg1 =>
        simp only [Bool.or_eq_true, List.isEmpty_iff]
        rintro (h | h)
        · exact ne_nil_of_strip_ne_nil patient_id hp h
        · exact hp h
      rw [if_pos (by simp [List.isEmpty_iff, he])]
    · exact ⟨[], " must not be empty".data, rfl⟩

/-- Witness for claim C7 at blank identifiers: the empty and the
    all-space patient_id both fail naming patient_id, and a blank
    encounter_id fails naming encounter_id. -/
theorem claim_C7_witness :
    (DocumentReferenceBuilder.from_transcript [] [] "e-1".data
        { year := 2024, month := 1, day := 2, hour := 3, minute := 4, second := 5 }
        "progress_note".data Option.none "T".data =
      BuildRes.invalidArgument "patient_id must not be empty".data) ∧
    (DocumentReferenceBuilder.from_transcript [] "   ".data "e-1".data
        { year := 2024, month := 1, day := 2, hour := 3, minute := 4, second := 5 }
        "progress_note".data Option.none "T".data =
      BuildRes.invalidArgument "patient_id must not be empty".data) ∧
    (DocumentReferenceBuilder.from_transcript [] "p-1".data "   ".data
        { year := 2024, month := 1, day := 2, hour := 3, minute := 4, second := 5 }
        "progress_note".data Option.none "T".data =
      BuildRes.invalidArgument "encounter_id must not be empty".data) := by
  refine ⟨?_, ?_, ?_⟩
  · exact ((claim_C7 [] [] "e-1".data _ "progress_note".data Option.none "T".data).1
      (by decide)).1
  · exact ((claim_C7 [] "   ".data "e-1".data _ "progress_note".data Option.none
      "T".data).1 (by decide)).1
  · exact ((claim_C7 [] "p-1".data "   ".data _ "progress_note".data Option.none
      "T".data).2 (by decide) (by decide)).1

/-- Claim C9: when a present field has the wrong container shape, the
    validator does not report it in the aggregated error list but fails
    with an uncaught Python exception: a string subject (the .get
    attribute lookup raises AttributeError), and likewise a string entry
    in the author list; in neither case is the aggregated
    FHIRValidationError produced. -/
theorem claim_C9 :
    DocumentReferenceBuilder.validate_r4_schema docSubjectString =
      VRes.raised (PyExc.attributeError "object has no attribute get".data) ∧
    DocumentReferenceBuilder.validate_r4_schema docAuthorString =
      VRes.raised (PyExc.attributeError "object has no attribute get".data) ∧
    (∀ n msg, DocumentReferenceBuilder.validate_r4_schema docSubjectString ≠
      VRes.schemaErr n msg) := by
  refine ⟨rfl, rfl, ?_⟩
  intro n msg h
  rw [show DocumentReferenceBuilder.validate_r4_schema docSubjectString =
    VRes.raised (PyExc.attributeError "object has no attribute get".data) from rfl] at h
  exact VRes.noConfusion h

/-- Claim C10: the HL7 escaping is applied only to the transcript
    argument: the patient, visit, order, provider and document
    identifiers are spliced into their segments verbatim, so a patient_id
    containing a carriage return yields seven carriage-return-separated
    segments from build_t02 instead of six, and five from build_r01
    instead of four. -/
theorem claim_C10 :
    (∀ p : Str, MDMBuilder.pid p =
      "PID|1||".data ++ p ++ "^^^MRN||LastName^FirstName|||U".data) ∧
    (∀ p : Str, ORUBuilder.pid p =
      "PID|1||".data ++ p ++ "^^^MRN||LastName^FirstName|||U".data) ∧
    (∀ v npi : Str, MDMBuilder.pv1 v npi =
      "PV1|1|I|^^^WARD^^BED||||||".data ++ npi ++ "^Provider^Name||||||||".data ++ v) ∧
    (∀ ts d npi : Str, MDMBuilder.txa ts d npi =
      "TXA|1|PN^Progress Note|TX|".data ++ ts ++ "|".data ++ npi ++
        "^Provider^Name|".data ++ ts ++ "|".data ++ ts ++ "||".data ++ d ++ "||".data ++
        d ++ "|AU||AV".data) ∧
    (∀ o ts npi c d : Str, ORUBuilder.obr o ts npi c d =
      "OBR|1|".data ++ o ++ "||".data ++ c ++ "^".data ++ d ++ "^LN|||".data ++ ts ++
        "|||".data ++ npi ++ "^Provider^Name".data) ∧
    (pySplitChar '\r' (MDMBuilder.build_t02 "hello".data "X\rY".data "V1".data
        "NPI1".data nowH Option.none "DEEPGRAM".data "EHR".data "EHR_SYSTEM".data
        "FACILITY".data)).length = 7 ∧
    (pySplitChar '\r' (ORUBuilder.build_r01 "hello".data "X\rY".data "O1".data
        "NPI1".data nowH "11506-3".data "Progress note".data "DEEPGRAM".data "EHR".data
        "EHR_SYSTEM".data "FACILITY".data)).length = 5 := by
  refine ⟨fun p => rfl, fun p => rfl, fun v npi => rfl, fun ts d npi => rfl,
    fun o ts npi c d => rfl, ?_, ?_⟩
  · decide
  · decide

/-- Claim C8: the four recognized doc_type_code values map to their
    fixed LOINC codes (consult_note in particular to 11488-4), and for
    every doc_type_code — recognized or not — the build succeeds (under
    well-formed identifiers) with type.coding[0].code equal to the table
    lookup with the progress-note code as the fallback. -/
theorem claim_C8 :
    (assocGet DOC_TYPE_LOINC "progress_note".data = some "11506-3".data ∧
     assocGet DOC_TYPE_LOINC "consult_note".data = some "11488-4".data ∧
     assocGet DOC_TYPE_LOINC "discharge_summary".data = some "18842-5".data ∧
     assocGet DOC_TYPE_LOINC "ambient".data = some "34109-9".data) ∧
    ∀ (utterances : List Utterance) (patient_id encounter_id : Str) (now : UtcNow)
      (doc_type_code title : Str),
      pyStrip patient_id ≠ [] → '\n' ∉ patient_id →
      pyStrip encounter_id ≠ [] → '\n' ∉ encounter_id →
      ∃ doc_ref,
        DocumentReferenceBuilder.from_transcript utterances patient_id encounter_id now
            doc_type_code Option.none title = BuildRes.ok doc_ref ∧
        codingCode doc_ref =
          some ((assocGet DOC_TYPE_LOINC doc_type_code).getD _LOINC_PROGRESS_NOTE) := by
  refine ⟨⟨by decide, by decide, by decide, by decide⟩, ?_⟩
  intro utterances patient_id encounter_id now doc_type_code title hp1 hp2 he1 he2
  exact ⟨builtBase utterances patient_id encounter_id now doc_type_code title,
    from_transcript_ok utterances patient_id encounter_id now doc_type_code title
      hp1 hp2 he1 he2,
    codingCode_built utterances patient_id encounter_id now doc_type_code title⟩

/-- Witness for claim C8: an unrecognized doc_type_code still builds,
    falling back to the progress-note code. -/
theorem claim_C8_witness :
    ∃ doc_ref,
      DocumentReferenceBuilder.from_transcript [] "p-1".data "e-1".data
          { year := 2024, month := 1, day := 2, hour := 3, minute := 4, second := 5 }
          "totally_unknown".data Option.none "T".data = BuildRes.ok doc_ref ∧
      codingCode doc_ref = some "11506-3".data := by
  have h := claim_C8.2 [] "p-1".data "e-1".data
    { year := 2024, month := 1, day := 2, hour := 3, minute := 4, second := 5 }
    "totally_unknown".data "T".data (by decide) (by decide) (by decide) (by decide)
  obtain ⟨d, h1, h2⟩ := h
  exact ⟨d, h1, by rw [h2]; decide⟩

/-- Claim C4: the formatter maps the empty sequence to the empty string
    and a non-empty sequence to one line per utterance in order, each of
    the exact bracketed form with one-decimal times; the concrete
    utterance of the specification formats to exactly
    [Speaker 0 | 0.5s-3.2s] Good morning, and round-trips bit-for-bit
    through from_transcript and decode_content. -/
theorem claim_C4 :
    (_format_transcript [] = []) ∧
    (∀ us : List Utterance, us ≠ [] →
      _format_transcript us = pyJoin "\n".data (us.map (fun u =>
        "[Speaker ".data ++ intStr u.speaker ++ " | ".data ++ fmt1f u.start ++
          "s-".data ++ fmt1f u.end_ ++ "s] ".data ++ u.transcript))) ∧
    (utteranceLine uGoodMorning = "[Speaker 0 | 0.5s-3.2s] Good morning".data) ∧
    (∃ doc_ref,
      DocumentReferenceBuilder.from_transcript [uGoodMorning] "patient-123".data
          "encounter-456".data nowC "consult_note".data Option.none
          "Clinical Transcription".data = BuildRes.ok doc_ref ∧
      DocumentReferenceBuilder.decode_content doc_ref =
        DecRes.ok "[Speaker 0 | 0.5s-3.2s] Good morning".data) := by
  refine ⟨rfl, ?_, by decide, ?_⟩
  · intro us hus
    unfold _format_transcript
    rw [if_neg (by simp [List.isEmpty_iff, hus])]
    rfl
  · refine ⟨builtBase [uGoodMorning] "patient-123".data "encounter-456".data nowC
      "consult_note".data "Clinical Transcription".data,
      from_transcript_ok [uGoodMorning] "patient-123".data "encounter-456".data nowC
        "consult_note".data "Clinical Transcription".data
        (by decide) (by decide) (by decide) (by decide), ?_⟩
    rw [decode_content_built]
    rw [show _format_transcript [uGoodMorning] =
      "[Speaker 0 | 0.5s-3.2s] Good morning".data by decide]

/-- Witness for claim C4 on a non-empty sequence: the formatter equation
    instantiated at the concrete utterance. -/
theorem claim_C4_witness :
    _format_transcript [uGoodMorning] = pyJoin "\n".data ([uGoodMorning].map (fun u =>
      "[Speaker ".data ++ intStr u.speaker ++ " | ".data ++ fmt1f u.start ++
        "s-".data ++ fmt1f u.end_ ++ "s] ".data ++ u.transcript)) :=
  claim_C4.2.1 [uGoodMorning] (by simp)

/-- Counterexample to claim C3 as stated: the patient id with an
    interior newline is non-blank, yet with a non-empty utterance list
    the build fails (the subject reference no longer matches the
    reference pattern), instead of succeeding. -/
theorem claim_C3_counterexample :
    pyStrip "a\nb".data ≠ [] ∧
    DocumentReferenceBuilder.from_transcript [uGoodMorning] "a\nb".data
        "encounter-456".data nowC "progress_note".data Option.none
        "Clinical Transcription".data =
      BuildRes.schemaErr 1 (validationMsg [c3msg]) := by
  exact ⟨by decide, by rfl⟩

/-- Claim C3 (amended: the identifiers must also contain no newline
    character): for every non-empty utterance list and non-blank,
    newline-free patient and encounter ids, the build succeeds and the
    decoded content contains every utterance transcript as a
    substring. -/
theorem claim_C3 (utterances : List Utterance) (patient_id encounter_id : Str)
    (now : UtcNow) (doc_type_code title : Str)
    (hu : utterances ≠ []) (hp1 : pyStrip patient_id ≠ []) (hp2 : '\n' ∉ patient_id)
    (he1 : pyStrip encounter_id ≠ []) (he2 : '\n' ∉ encounter_id) :
    ∃ doc_ref t,
      DocumentReferenceBuilder.from_transcript utterances patient_id encounter_id now
          doc_type_code Option.none title = BuildRes.ok doc_ref ∧
      DocumentReferenceBuilder.decode_content doc_ref = DecRes.ok t ∧
      ∀ u ∈ utterances, List.IsInfix u.transcript t := by
  refine ⟨builtBase utterances patient_id encounter_id now doc_type_code title,
    _format_transcript utterances,
    from_transcript_ok utterances patient_id encounter_id now doc_type_code title
      hp1 hp2 he1 he2,
    decode_content_built utterances patient_id encounter_id now doc_type_code title, ?_⟩
  intro u hmem
  have hline : List.IsInfix u.transcript (utteranceLine u) := by
    unfold utteranceLine
    repeat' apply isInfix_append_left
    exact isInfix_refl u.transcript
  unfold _format_transcript
  rw [if_neg (by simp [List.isEmpty_iff, hu])]
  exact hline.trans (mem_isInfix_pyJoin "\n".data _ (utteranceLine u)
    (List.mem_map_of_mem utteranceLine hmem))

/-- Witness for the amended claim C3 at the concrete scenario inputs. -/
theorem claim_C3_witness :
    ∃ doc_ref t,
      DocumentReferenceBuilder.from_transcript [uGoodMorning] "patient-123".data
          "encounter-456".data nowC "progress_note".data Option.none
          "Clinical Transcription".data = BuildRes.ok doc_ref ∧
      DocumentReferenceBuilder.decode_content doc_ref = DecRes.ok t ∧
      ∀ u ∈ [uGoodMorning], List.IsInfix u.transcript t :=
  claim_C3 [uGoodMorning] "patient-123".data "encounter-456".data nowC
    "progress_note".data "Clinical Transcription".data (by simp) (by decide) (by decide)
    (by decide) (by decide)

/-- Claim C1 (amended): whenever the validator finishes without an
    uncaught Python exception, its error list is exactly the
    concatenation of the nine independent block checks (no block is
    skipped after an earlier failure), and when that list is non-empty
    the single FHIRValidationError carries the error count and a message
    in which every one of the collected errors appears verbatim.  The
    unqualified every-violating-artifact reading of the claim fails:
    non-ASCII attachment data is a base64 violation on which the
    validator raises an uncaught ValueError instead of aggregating
    (see the counterexample). -/
theorem claim_C1 (doc_ref : JObj) (errs : List Str)
    (h : validate_errors doc_ref = Except.ok errs) :
    (∃ l2 l3 l4 l5 l6 l7 l8 l9,
      checkStatus doc_ref = Except.ok l2 ∧ checkDocStatus doc_ref = Except.ok l3 ∧
      checkTypeCoding doc_ref = Except.ok l4 ∧ checkSubject doc_ref = Except.ok l5 ∧
      checkDate doc_ref = Except.ok l6 ∧ checkContent doc_ref = Except.ok l7 ∧
      checkEncounter doc_ref = Except.ok l8 ∧ checkAuthor doc_ref = Except.ok l9 ∧
      errs = checkResourceType doc_ref ++ l2 ++ l3 ++ l4 ++ l5 ++ l6 ++ l7 ++ l8 ++ l9) ∧
    (errs ≠ [] →
      DocumentReferenceBuilder.validate_r4_schema doc_ref =
        VRes.schemaErr errs.length (validationMsg errs) ∧
      ∀ e ∈ errs, List.IsInfix e (validationMsg errs)) := by
  have h0 := h
  unfold validate_errors at h
  rcases h2 : checkStatus doc_ref with e2 | l2 <;> rw [h2] at h
  · simp [Bind.bind, Except.bind] at h
  rcases h3 : checkDocStatus doc_ref with e3 | l3 <;> rw [h3] at h
  · simp [Bind.bind, Except.bind] at h
  rcases h4 : checkTypeCoding doc_ref with e4 | l4 <;> rw [h4] at h
  · simp [Bind.bind, Except.bind] at h
  rcases h5 : checkSubject doc_ref with e5 | l5 <;> rw [h5] at h
  · simp [Bind.bind, Except.bind] at h
  rcases h6 : checkDate doc_ref with e6 | l6 <;> rw [h6] at h
  · simp [Bind.bind, Except.bind] at h
  rcases h7 : checkContent doc_ref with e7 | l7 <;> rw [h7] at h
  · simp [Bind.bind, Except.bind] at h
  rcases h8 : checkEncounter doc_ref with e8 | l8 <;> rw [h8] at h
  · simp [Bind.bind, Except.bind] at h
  rcases h9 : checkAuthor doc_ref with e9 | l9 <;> rw [h9] at h
  · simp [Bind.bind, Except.bind] at h
  simp only [Bind.bind, Except.bind, Except.ok.injEq] at h
  refine ⟨⟨l2, l3, l4, l5, l6, l7, l8, l9, rfl, rfl, rfl, rfl, rfl, rfl, rfl, rfl, h.symm⟩, ?_⟩
  intro hne
  constructor
  · unfold DocumentReferenceBuilder.validate_r4_schema
    rw [h0]
    cases errs with
    | nil => exact absurd rfl hne
    | cons x xs => rfl
  · intro e he
    unfold validationMsg
    apply isInfix_append_left
    exact mem_isInfix_pyJoin "\n  - ".data errs e he

/-- Witness for claim C1: the three simultaneous violations are all
    collected, and the single error message mentions all three. -/
theorem claim_C1_witness :
    validate_errors docBadThree = Except.ok [c1mStatus, c1mSubject, c1mB64] ∧
    DocumentReferenceBuilder.validate_r4_schema docBadThree =
      VRes.schemaErr 3 (validationMsg [c1mStatus, c1mSubject, c1mB64]) ∧
    ∀ e ∈ [c1mStatus, c1mSubject, c1mB64],
      List.IsInfix e (validationMsg [c1mStatus, c1mSubject, c1mB64]) := by
  have h0 : validate_errors docBadThree = Except.ok [c1mStatus, c1mSubject, c1mB64] := by
    rfl
  have h := claim_C1 docBadThree [c1mStatus, c1mSubject, c1mB64] h0
  have h2 := h.2 (List.cons_ne_nil _ _)
  exact ⟨h0, by rw [h2.1]; rfl, h2.2⟩

/-- Claim C1 counterexample: an artifact with a genuine rule violation
    (status draft) and non-ASCII attachment data, another violation of
    the base64 rule.  b64decode raises a plain ValueError on the
    non-ASCII string, the except binascii.Error clause does not catch
    it, and validation dies with that uncaught exception: no aggregated
    FHIRValidationError listing the violations is ever raised, refuting
    the claim for such artifacts. -/
theorem claim_C1_counterexample :
    checkStatus docBadStatusNonAscii = Except.ok [c1mStatus] ∧
    validate_errors docBadStatusNonAscii =
      Except.error (PyExc.valueError b64AsciiErrStr) ∧
    DocumentReferenceBuilder.validate_r4_schema docBadStatusNonAscii =
      VRes.raised (PyExc.valueError b64AsciiErrStr) ∧
    ∀ n msg, DocumentReferenceBuilder.validate_r4_schema docBadStatusNonAscii ≠
      VRes.schemaErr n msg := by
  refine ⟨rfl, rfl, rfl, ?_⟩
  intro n msg h
  rw [show DocumentReferenceBuilder.validate_r4_schema docBadStatusNonAscii =
    VRes.raised (PyExc.valueError b64AsciiErrStr) from rfl] at h
  exact VRes.noConfusion h

/-- Claim C6: decode_content returns the decoded text exactly when the
    nested keys are present with a string payload that base64-decodes
    and reads back as UTF-8 text, and otherwise fails with a DecodeError
    whose message carries str() of the underlying cause: the missing
    key (its repr) or index for absent keys, and the exact ValueError
    text for a non-ASCII, short or mispadded payload and for bytes that
    are not UTF-8. -/
theorem claim_C6 (doc_ref : JObj) :
    (∀ v, extractData doc_ref = Except.ok (JVal.s v) →
      (∀ bytes t, b64DecodeLenient v = Except.ok bytes → utf8Decode bytes = Except.ok t →
        DocumentReferenceBuilder.decode_content doc_ref = DecRes.ok t) ∧
      (∀ m, b64DecodeLenient v = Except.error m →
        DocumentReferenceBuilder.decode_content doc_ref =
          DecRes.decodeError (decodePrefix ++ m)) ∧
      (∀ bytes m, b64DecodeLenient v = Except.ok bytes → utf8Decode bytes = Except.error m →
        DocumentReferenceBuilder.decode_content doc_ref =
          DecRes.decodeError (decodePrefix ++ m))) ∧
    (∀ k, extractData doc_ref = Except.error (PyExc.keyError k) →
      DocumentReferenceBuilder.decode_content doc_ref =
        DecRes.decodeError (decodePrefix ++ pyReprStr k)) ∧
    (∀ m, extractData doc_ref = Except.error (PyExc.indexError m) →
      DocumentReferenceBuilder.decode_content doc_ref =
        DecRes.decodeError (decodePrefix ++ m)) ∧
    (∀ t, DocumentReferenceBuilder.decode_content doc_ref = DecRes.ok t →
      ∃ v bytes, extractData doc_ref = Except.ok (JVal.s v) ∧
        b64DecodeLenient v = Except.ok bytes ∧ utf8Decode bytes = Except.ok t) := by
  refine ⟨?_, ?_, ?_, ?_⟩
  · intro v hv
    refine ⟨?_, ?_, ?_⟩
    · intro bytes t hb hu
      unfold DocumentReferenceBuilder.decode_content
      rw [hv]
      simp only []
      rw [hb]
      simp only []
      rw [hu]
    · intro m hb
      unfold DocumentReferenceBuilder.decode_content
      rw [hv]
      simp only []
      rw [hb]
    · intro bytes m hb hu
      unfold DocumentReferenceBuilder.decode_content
      rw [hv]
      simp only []
      rw [hb]
      simp only []
      rw [hu]
  · intro k hk
    unfold DocumentReferenceBuilder.decode_content
    rw [hk]
  · intro m hm
    unfold DocumentReferenceBuilder.decode_content
    rw [hm]
  · intro t ht
    unfold DocumentReferenceBuilder.decode_content at ht
    rcases hE : extractData doc_ref with e | v <;> rw [hE] at ht
    · cases e <;> simp at ht
    · cases v with
      | s w =>
        simp only [] at ht
        rcases hB : b64DecodeLenient w with m | bytes <;> rw [hB] at ht
        · simp at ht
        · simp only [] at ht
          rcases hU : utf8Decode bytes with m | t2 <;> rw [hU] at ht
          · simp at ht
          · simp only [DecRes.ok.injEq] at ht
            exact ⟨w, bytes, rfl, hB, ht ▸ hU⟩
      | arr l => simp at ht
      | obj l => simp at ht
      | null => simp at ht

/-- Witness for claim C6: a well-formed payload decodes; a missing
    content key, a payload three data characters into a group, a
    payload one data character into a group, a non-ASCII payload and a
    payload decoding to bytes that are not UTF-8 each fail with the
    DecodeError carrying their own cause. -/
theorem claim_C6_witness :
    DocumentReferenceBuilder.decode_content docDecodeDemo = DecRes.ok "hi".data ∧
    DocumentReferenceBuilder.decode_content (JObj.ofL []) =
      DecRes.decodeError (decodePrefix ++ pyReprStr "content".data) ∧
    DocumentReferenceBuilder.decode_content docBadPad =
      DecRes.decodeError (decodePrefix ++ b64ErrStr) ∧
    DocumentReferenceBuilder.decode_content docBadOne =
      DecRes.decodeError (decodePrefix ++ b64NumDataMsg 1) ∧
    DocumentReferenceBuilder.decode_content docNonAsciiPayload =
      DecRes.decodeError (decodePrefix ++ b64AsciiErrStr) ∧
    DocumentReferenceBuilder.decode_content docBadUtf8 =
      DecRes.decodeError (decodePrefix ++ utf8ByteMsg 128 0 "invalid start byte".data) := by
  refine ⟨?_, ?_, ?_, ?_, ?_, ?_⟩
  · exact ((claim_C6 docDecodeDemo).1 "aGk=".data rfl).1 [104, 105] "hi".data rfl rfl
  · exact (claim_C6 (JObj.ofL [])).2.1 "content".data rfl
  · exact ((claim_C6 docBadPad).1 "aGk".data rfl).2.1 b64ErrStr rfl
  · exact ((claim_C6 docBadOne).1 "a".data rfl).2.1 (b64NumDataMsg 1) rfl
  · exact ((claim_C6 docNonAsciiPayload).1 "aGk=é".data rfl).2.1 b64AsciiErrStr rfl
  · exact ((claim_C6 docBadUtf8).1 "gA==".data rfl).2.2 [128]
      (utf8ByteMsg 128 0 "invalid start byte".data) rfl rfl

theorem isWordChar_of_alpha (c : Char) (h : isAsciiAlpha c = true) :
    isWordChar c = true := by
  simp [isWordChar, h]

theorem fhirReferenceMatch_decomp (v : Str) (h : fhirReferenceMatch v = true) :
    ∃ c0 w body t, v = c0 :: (w ++ '/' :: (body ++ t)) ∧
      isUpperAlpha c0 = true ∧ w ≠ [] ∧ (∀ c ∈ w, isAsciiAlpha c = true) ∧
      body ≠ [] ∧ '\n' ∉ body ∧ (t = [] ∨ t = ['\n']) := by
  cases v with
  | nil => simp [fhirReferenceMatch] at h
  | cons c0 rest =>
    simp only [fhirReferenceMatch, Bool.and_eq_true, Bool.not_eq_true',
      decide_eq_true_eq] at h
    obtain ⟨⟨⟨h0, h1⟩, h2⟩, h3⟩ := h
    have hwne : rest.takeWhile isAsciiAlpha ≠ [] := by
      intro he
      rw [he] at h1
      simp at h1
    have hwa : ∀ c ∈ rest.takeWhile isAsciiAlpha, isAsciiAlpha c = true :=
      fun c hc => List.mem_takeWhile_imp hc
    have hsplit : rest.takeWhile isAsciiAlpha ++ rest.dropWhile isAsciiAlpha = rest :=
      List.takeWhile_append_dropWhile isAsciiAlpha rest
    rcases hd : rest.dropWhile isAsciiAlpha with _ | ⟨x, xs⟩
    · rw [hd] at h2
      simp at h2
    · rw [hd] at h2 h3 hsplit
      simp only [List.head?_cons, Option.some.injEq] at h2
      subst h2
      simp only [List.tail_cons] at h3
      by_cases hL : xs.getLast? = some '\n'
      · obtain ⟨b0, hb0⟩ := List.getLast?_eq_some_iff.mp hL
        subst hb0
        unfold dotPlusThenEnd at h3
        rw [List.getLast?_concat, if_pos rfl, List.dropLast_concat] at h3
        simp only [Bool.and_eq_true, Bool.not_eq_true', List.all_eq_true] at h3
        obtain ⟨hbne, hball⟩ := h3
        refine ⟨c0, rest.takeWhile isAsciiAlpha, b0, ['\n'],
          congrArg (fun l => c0 :: l) hsplit.symm, h0, hwne, hwa, ?_, ?_, Or.inr rfl⟩
        · intro he
          rw [he] at hbne
          simp at hbne
        · intro hm
          have := hball '\n' hm
          simp at this
      · unfold dotPlusThenEnd at h3
        rw [if_neg hL] at h3
        simp only [Bool.and_eq_true, Bool.not_eq_true', List.all_eq_true] at h3
        obtain ⟨hbne, hball⟩ := h3
        refine ⟨c0, rest.takeWhile isAsciiAlpha, xs, [], ?_, h0, hwne, hwa, ?_, ?_,
          Or.inl rfl⟩
        · rw [List.append_nil]
          exact congrArg (fun l => c0 :: l) hsplit.symm
        · intro he
          rw [he] at hbne
          simp at hbne
        · intro hm
          have := hball '\n' hm
          simp at this

/-- Claim C5 counterexample: the string Ab/x(newline)y has exactly the
    claimed shape (a capitalized resource type of word characters, a
    slash, then at least one character) yet the compiled reference
    pattern rejects it: the dot of the pattern never matches a newline,
    so the claimed acceptance set is strictly larger than the real one. -/
theorem claim_C5_counterexample :
    claimRefForm ('A' :: 'b' :: '/' :: 'x' :: '\n' :: 'y' :: []) = true ∧
    fhirReferenceMatch ('A' :: 'b' :: '/' :: 'x' :: '\n' :: 'y' :: []) = false := by
  decide

/-- Claim C5 (amended): the reference pattern accepts exactly the
    strings made of an uppercase letter, at least one further ASCII
    letter, a slash, then at least one non-newline character, with at
    most one trailing newline allowed by the dollar anchor; the claimed
    examples behave as stated (Patient/123 passes; patient/123,
    Patient-123, /123 and the empty string fail), and every accepted
    string does have the claimed word-character shape, but not
    conversely. -/
theorem claim_C5 (v : Str) :
    (fhirReferenceMatch v = true ↔
      ∃ c0 w body t, v = c0 :: (w ++ '/' :: (body ++ t)) ∧
        isUpperAlpha c0 = true ∧ w ≠ [] ∧ (∀ c ∈ w, isAsciiAlpha c = true) ∧
        body ≠ [] ∧ '\n' ∉ body ∧ (t = [] ∨ t = ['\n'])) ∧
    (fhirReferenceMatch v = true → claimRefForm v = true) ∧
    fhirReferenceMatch "Patient/123".data = true ∧
    fhirReferenceMatch "patient/123".data = false ∧
    fhirReferenceMatch "Patient-123".data = false ∧
    fhirReferenceMatch "/123".data = false ∧
    fhirReferenceMatch "".data = false := by
  refine ⟨⟨fhirReferenceMatch_decomp v, ?_⟩, ?_, by decide, by decide, by decide,
    by decide, by decide⟩
  · rintro ⟨c0, w, body, t, rfl, h0, hw, hwa, hb, hbn, ht⟩
    exact fhirReferenceMatch_build c0 w body t h0 hw hwa hb hbn ht
  · intro hm
    obtain ⟨c0, w, body, t, rfl, h0, hw, hwa, hb, hbn, ht⟩ :=
      fhirReferenceMatch_decomp v hm
    have hwword : ∀ c ∈ w, isWordChar c = true :=
      fun c hc => isWordChar_of_alpha c (hwa c hc)
    have hslashw : isWordChar '/' = false := by decide
    simp only [claimRefForm]
    rw [dropWhile_all_append isWordChar w ('/' :: (body ++ t)) hwword]
    simp only [List.dropWhile_cons, hslashw, Bool.false_eq_true, if_false,
      List.head?_cons, List.tail_cons]
    rw [Bool.and_eq_true, Bool.and_eq_true]
    refine ⟨⟨h0, by simp⟩, ?_⟩
    simp only [Bool.not_eq_true']
    cases body with
    | nil => exact absurd rfl hb
    | cons b bs => simp

/-- Witness for claim C5: the theorem applied at Patient/123 gives both
    acceptance by the pattern and membership in the claimed shape. -/
theorem claim_C5_witness :
    fhirReferenceMatch "Patient/123".data = true ∧
    claimRefForm "Patient/123".data = true :=
  ⟨(claim_C5 "Patient/123".data).2.2.1,
   (claim_C5 "Patient/123".data).2.1 (claim_C5 "Patient/123".data).2.2.1⟩

/-- Claim C2: for every transcript, including ones holding pipe,
    carriage-return or newline characters, build_t02 splits on carriage
    return into exactly the six segments MSH, EVN, PID, PV1, TXA, OBX in
    that order and build_r01 into exactly MSH, PID, OBR, OBX; the OBX
    observation-value field (field 5 of the pipe split) is the transcript
    with each pipe replaced by the field-separator escape and each
    carriage return or newline by a single space, and that escaped text
    holds no pipe, carriage return or newline, so transcript content
    never adds a field or segment boundary. The non-transcript inputs are
    assumed carriage-return free; claim C10 covers what happens when they
    are not. -/
theorem claim_C2 (transcript pid vid oid npi ts micro : Str) (docId : Option Str)
    (hpid : '\r' ∉ pid) (hvid : '\r' ∉ vid) (hoid : '\r' ∉ oid) (hnpi : '\r' ∉ npi)
    (hts : '\r' ∉ ts) (hmicro : '\r' ∉ micro)
    (hdoc : ∀ s, docId = some s → '\r' ∉ s) :
    (pySplitChar '\r'
        (MDMBuilder.build_t02 transcript pid vid npi ⟨ts, micro⟩ docId)).map
        (List.take 3) =
      ["MSH".data, "EVN".data, "PID".data, "PV1".data, "TXA".data, "OBX".data] ∧
    (pySplitChar '\r'
        (ORUBuilder.build_r01 transcript pid oid npi ⟨ts, micro⟩)).map
        (List.take 3) =
      ["MSH".data, "PID".data, "OBR".data, "OBX".data] ∧
    pySplitChar '|' (MDMBuilder.obx transcript) =
      ["OBX".data, "1".data, "TX".data, "18842-5^Discharge summary^LN".data, [],
       hl7EscapeTranscript transcript, [], [], [], [], [], "F".data] ∧
    pySplitChar '|' (ORUBuilder.obx transcript "11506-3".data "Progress note".data) =
      ["OBX".data, "1".data, "TX".data,
       "11506-3".data ++ "^".data ++ "Progress note".data ++ "^LN".data, [],
       hl7EscapeTranscript transcript, [], [], [], [], [], "F".data] ∧
    hl7EscapeTranscript transcript = transcript.flatMap hl7EscapeChar ∧
    '|' ∉ hl7EscapeTranscript transcript ∧
    '\r' ∉ hl7EscapeTranscript transcript ∧
    '\n' ∉ hl7EscapeTranscript transcript := by
  have hm6 := mdm_segments transcript pid vid npi ts micro docId
    "DEEPGRAM".data "EHR".data "EHR_SYSTEM".data "FACILITY".data
    hpid hvid hnpi hts hmicro hdoc (by decide) (by decide) (by decide) (by decide)
  have ho4 := oru_segments transcript pid oid npi ts micro
    "11506-3".data "Progress note".data
    "DEEPGRAM".data "EHR".data "EHR_SYSTEM".data "FACILITY".data
    hpid hoid hnpi hts hmicro (by decide) (by decide)
    (by decide) (by decide) (by decide) (by decide)
  refine ⟨?_, ?_, mdm_obx_fields transcript,
    oru_obx_fields transcript "11506-3".data "Progress note".data (by decide) (by decide),
    hl7EscapeTranscript_eq_flatMap transcript,
    hl7Escape_clean transcript '|' (Or.inl rfl),
    hl7Escape_clean transcript '\r' (Or.inr (Or.inl rfl)),
    hl7Escape_clean transcript '\n' (Or.inr (Or.inr rfl))⟩
  · rw [hm6]
    rfl
  · rw [ho4]
    rfl

/-- Witness for claim C2 at a transcript holding a pipe and a newline. -/
theorem claim_C2_witness :
    (pySplitChar '\r'
        (MDMBuilder.build_t02 "a|b\nc".data "P1".data "V1".data "N1".data
          ⟨nowH.ts, nowH.tsMicro⟩ Option.none)).map (List.take 3) =
      ["MSH".data, "EVN".data, "PID".data, "PV1".data, "TXA".data, "OBX".data] ∧
    pySplitChar '|' (MDMBuilder.obx "a|b\nc".data) =
      ["OBX".data, "1".data, "TX".data, "18842-5^Discharge summary^LN".data, [],
       hl7EscapeTranscript "a|b\nc".data, [], [], [], [], [], "F".data] := by
  have h := claim_C2 "a|b\nc".data "P1".data "V1".data "O1".data "N1".data
    nowH.ts nowH.tsMicro Option.none
    (by decide) (by decide) (by decide) (by decide) (by decide) (by decide)
    (fun s hs => Option.noConfusion hs)
  exact ⟨h.1, h.2.2.1⟩

